import Mathlib

/-!
Verification development for the atom_node plugin lifecycle and execution
engine. The definitions below are a shallow embedding of the Rust sources:

* `src/services/plugin_service.rs`   (install, update, archive extraction,
  parameter schema validation, semver gate)
* `src/services/execution_service.rs` (two-phase execute/prepare/apply,
  parameter resolution, process supervision)
* `src/repository/execution_repository.rs` (execution row updates)
* `src/models/*.rs` (data model; the struct fields follow their use sites in
  the services, which also read `plugin_id`, `min_atom_node_version` and
  parameter `choices` — fields present in the database schema of
  `src/repository/connection.rs`)

Machine integers are modelled as `Int`/`Nat` (no arithmetic in the claims
overflows), timestamps as `Int` epoch-milliseconds, JSON values as an
inductive `Json`, and fallible Rust functions as `Except AppError`.
-/

/-!
String helpers. Lean's own `String.trim`/`String.splitOn` recurse on byte
positions and do not reduce inside the kernel, so the Rust `str` operations
used by the sources are modelled directly on the character list. The claims
only exercise ASCII text, for which these agree with Rust. -/

/-- Rust `str::trim`: strip leading and trailing whitespace. -/
def strTrim (s : String) : String :=
  ⟨((s.data.dropWhile Char.isWhitespace).reverse.dropWhile Char.isWhitespace).reverse⟩

/-- Rust `str::is_empty`. -/
def strIsEmpty (s : String) : Bool :=
  s.data.isEmpty

/-- Split a character list at every occurrence of `sep` (Rust
`str::split(sep)`: `n` separators yield `n+1` pieces, empty pieces kept). -/
def splitCharsOn (sep : Char) : List Char → List (List Char)
  | [] => [[]]
  | c :: rest =>
    match splitCharsOn sep rest with
    | [] => if c = sep then [[], []] else [[c]]
    | piece :: pieces =>
      if c = sep then [] :: piece :: pieces else (c :: piece) :: pieces

/-- Rust `str::split(sep)` producing strings. -/
def strSplitOn (sep : Char) (s : String) : List String :=
  (splitCharsOn sep s.data).map fun cs => ⟨cs⟩

/-- Mirrors `AppError` from `src/error.rs` (database/io variants carry only
their message here). -/
inductive AppError where
  | database (msg : String)
  | pluginNotFound (id : String)
  | pluginAlreadyExists (id : String)
  | executionNotFound (id : String)
  | execution (msg : String)
  | io (msg : String)
  | invalidPluginType
  | pluginDisabled
deriving DecidableEq, Repr

/-- JSON values (`serde_json::Value`). Numbers keep the serde distinction
between integer-backed (`i64`/`u64`, here an unbounded `Int`) and
float-backed (`f64`, here a rational standing for the finite doubles that
occur in practice) values: `as_i64`/`as_u64` succeed only on the former, and
serde equality never identifies an integer with a float. Objects are
`BTreeMap`s in serde (sorted keys, no duplicates), so we model them as their
canonical association lists, on which structural equality coincides with map
equality. -/
inductive Json where
  | null
  | bool (b : Bool)
  | int (i : Int)
  | float (q : Rat)
  | str (s : String)
  | arr (items : List Json)
  | obj (fields : List (String × Json))

mutual

/-- Structural equality on JSON values (`serde_json::Value::eq`; object
fields are canonical sorted association lists, see `Json`). -/
def Json.beq : Json → Json → Bool
  | .null, .null => true
  | .bool a, .bool b => a == b
  | .int a, .int b => a == b
  | .float a, .float b => a == b
  | .str a, .str b => a == b
  | .arr xs, .arr ys => Json.beqList xs ys
  | .obj xs, .obj ys => Json.beqObj xs ys
  | _, _ => false

def Json.beqList : List Json → List Json → Bool
  | [], [] => true
  | x :: xs, y :: ys => Json.beq x y && Json.beqList xs ys
  | _, _ => false

def Json.beqObj : List (String × Json) → List (String × Json) → Bool
  | [], [] => true
  | (k, v) :: xs, (l, w) :: ys => k == l && Json.beq v w && Json.beqObj xs ys
  | _, _ => false

end

/-- `PluginParamType` from `src/models/plugin.rs`. -/
inductive PluginParamType where
  | string
  | number
  | integer
  | boolean
  | json
deriving DecidableEq, Repr

/-- `PluginParamType::matches` from `src/models/plugin.rs`: `Integer`
requires `as_i64`/`as_u64` to succeed, which holds exactly for
integer-backed numbers; `Json` matches anything. -/
def PluginParamType.matches : PluginParamType → Json → Bool
  | .string, .str _ => true
  | .string, _ => false
  | .number, .int _ => true
  | .number, .float _ => true
  | .number, _ => false
  | .integer, .int _ => true
  | .integer, _ => false
  | .boolean, .bool _ => true
  | .boolean, _ => false
  | .json, _ => true

/-- `PluginParameter` as used by the services (`name`, `type`, `description`,
`default`, `choices`). -/
structure PluginParameter where
  name : String
  param_type : PluginParamType
  description : Option String
  default : Option Json
  choices : Option (List Json)

/-- Loop body of `PluginService::validate_parameters`
(`src/services/plugin_service.rs:761`): per parameter, the trimmed name must
be non-empty, equal to the raw name, and unseen; a `default`, when present,
must match the declared type. The `seen` set is modelled as the list of
names already accepted. Note the source performs no check against
`choices`. -/
def validateParamsLoop : List PluginParameter → List String → Except AppError Unit
  | [], _ => .ok ()
  | p :: rest, seen =>
    let name := strTrim p.name
    if strIsEmpty name then
      .error (.execution "Parameter name cannot be empty")
    else if name ≠ p.name then
      .error (.execution "Parameter name has leading/trailing whitespace")
    else if seen.contains name then
      .error (.execution "Duplicate parameter name")
    else
      match p.default with
      | some d =>
        if p.param_type.matches d then validateParamsLoop rest (name :: seen)
        else .error (.execution "Default value does not match type")
      | none => validateParamsLoop rest (name :: seen)

/-- `PluginService::validate_parameters`: `None` passes through; otherwise
the loop above runs and, on success, the schema is returned (the source
serialises it to a JSON string; serialisation is modelled as the
identity). -/
def validateParameters : Option (List PluginParameter) → Except AppError (Option (List PluginParameter))
  | none => .ok none
  | some params =>
    match validateParamsLoop params [] with
    | .error e => .error e
    | .ok () => .ok (some params)

/-- `ExecutionService::ensure_choice` (`execution_service.rs:437`). -/
def ensureChoice (param : PluginParameter) (value : Json) : Except AppError Unit :=
  match param.choices with
  | none => .ok ()
  | some choices =>
    if choices.any (fun choice => Json.beq choice value) then .ok ()
    else .error (.execution "Parameter must be one of the choices")

/-- Schema-map construction inside `ExecutionService::resolve_parameters`
(`execution_service.rs:382-402`): re-checks trimmed/non-empty/unique names
and keys the map by trimmed name. The `HashMap` is modelled as an
association list in insertion order. -/
def buildSchemaMap : List PluginParameter → List (String × PluginParameter) → Except AppError (List (String × PluginParameter))
  | [], acc => .ok acc
  | p :: rest, acc =>
    let name := strTrim p.name
    if strIsEmpty name then
      .error (.execution "Parameter name cannot be empty")
    else if name ≠ p.name then
      .error (.execution "Parameter name has leading/trailing whitespace")
    else if (acc.lookup name).isSome then
      .error (.execution "Duplicate parameter name")
    else
      buildSchemaMap rest (acc ++ [(name, p)])

/-- Provided-value loop of `resolve_parameters` (`execution_service.rs:404-417`):
each provided name must exist in the schema, match its type and its
choices. The provided map is a list in one iteration order. -/
def resolveProvided (smap : List (String × PluginParameter)) : List (String × Json) → List (String × Json) → Except AppError (List (String × Json))
  | [], acc => .ok acc
  | (name, value) :: rest, acc =>
    match smap.lookup name with
    | none => .error (.execution "Unknown parameter")
    | some param =>
      if param.param_type.matches value then
        match ensureChoice param value with
        | .error e => .error e
        | .ok () => resolveProvided smap rest (acc ++ [(name, value)])
      else
        .error (.execution "Parameter does not match type")

/-- Default-filling loop of `resolve_parameters` (`execution_service.rs:419-432`):
for every schema parameter not already resolved, its default is used after a
choices re-check, else the resolution fails. -/
def fillDefaults : List PluginParameter → List (String × Json) → Except AppError (List (String × Json))
  | [], resolved => .ok resolved
  | p :: rest, resolved =>
    if (resolved.lookup p.name).isSome then
      fillDefaults rest resolved
    else
      match p.default with
      | some d =>
        match ensureChoice p d with
        | .error e => .error e
        | .ok () => fillDefaults rest (resolved ++ [(p.name, d)])
      | none => .error (.execution "Missing required parameter")

/-- `ExecutionService::resolve_parameters` (`execution_service.rs:368-435`),
taking the already-parsed schema (the source stores it as a JSON string and
`parse_parameters` turns `None`/blank into the empty schema). -/
def resolveParameters (schema : List PluginParameter) (provided : List (String × Json)) : Except AppError (List (String × Json)) :=
  if schema.isEmpty then
    if provided.isEmpty then .ok []
    else .error (.execution "Plugin does not declare parameters")
  else
    match buildSchemaMap schema [] with
    | .error e => .error e
    | .ok smap =>
      match resolveProvided smap provided [] with
      | .error e => .error e
      | .ok resolved => fillDefaults schema resolved

/-- A schema whose single parameter declares a default outside its choices
list (used to probe install-time validation). -/
def paramDefaultOutsideChoices : PluginParameter :=
  { name := "p"
    param_type := .string
    description := none
    default := some (Json.str "x")
    choices := some [Json.str "a"] }

/-- A plain string parameter with a default and no choices. -/
def paramStringWithDefault : PluginParameter :=
  { name := "q"
    param_type := .string
    description := none
    default := some (Json.str "d")
    choices := none }

/-!
Semantic versions: a shallow embedding of the `semver` crate as used by
`ensure_newer_version` (`plugin_service.rs:546`) and
`ensure_min_atom_node_version` (`execution_service.rs:450`). `Version::parse`
follows the SemVer grammar `major.minor.patch[-pre][+build]`; `Ord` compares
major, minor and patch numerically, then the prerelease identifiers (numeric
below alphanumeric, an empty prerelease above any non-empty one), then the
build metadata identifiers. Numeric components are `Nat` (the crate's `u64`
overflow is out of the claims' range). -/

/-- Rust `bytes().all(is_ascii_digit)` (true on the empty string). -/
def strAllDigits (s : String) : Bool :=
  s.data.all Char.isDigit

/-- Byte-lexicographic comparison of character lists (Rust `str::cmp`;
UTF-8 byte order equals codepoint order). -/
def cmpCharList : List Char → List Char → Ordering
  | [], [] => .eq
  | [], _ :: _ => .lt
  | _ :: _, [] => .gt
  | a :: as, b :: bs =>
    match compare a.val b.val with
    | .eq => cmpCharList as bs
    | o => o

/-- Rust `str::cmp`. -/
def cmpStr (a b : String) : Ordering :=
  cmpCharList a.data b.data

/-- Rust `trim_start_matches('0')`. -/
def trimStartZeros (s : String) : String :=
  ⟨s.data.dropWhile (· = '0')⟩

/-- Prerelease identifier-list comparison (`Ord for Prerelease` in the
`semver` crate, after its empty/non-empty special case): numeric
identifiers compare below alphanumeric ones and among themselves by length
then lexically (no leading zeros, so this is numeric order); a strict
prefix compares below. -/
def cmpPreIds : List String → List String → Ordering
  | [], [] => .eq
  | [], _ :: _ => .lt
  | _ :: _, [] => .gt
  | l :: ls, r :: rs =>
    let o :=
      match strAllDigits l, strAllDigits r with
      | true, true => (compare l.data.length r.data.length).then (cmpStr l r)
      | true, false => .lt
      | false, true => .gt
      | false, false => cmpStr l r
    match o with
    | .eq => cmpPreIds ls rs
    | o => o

/-- `Ord for Prerelease`: the empty prerelease (a release version) sorts
above any non-empty prerelease. -/
def cmpPre (a b : List String) : Ordering :=
  match a.isEmpty, b.isEmpty with
  | true, true => .eq
  | true, false => .gt
  | false, true => .lt
  | false, false => cmpPreIds a b

/-- `Ord for BuildMetadata`: like prerelease identifiers, but numeric
identifiers may carry leading zeros, which are stripped for the numeric
comparison and break ties by raw length; the empty metadata is the empty
identifier list and sorts below any non-empty one. -/
def cmpBuildIds : List String → List String → Ordering
  | [], [] => .eq
  | [], _ :: _ => .lt
  | _ :: _, [] => .gt
  | l :: ls, r :: rs =>
    let o :=
      match strAllDigits l, strAllDigits r with
      | true, true =>
        ((compare (trimStartZeros l).data.length (trimStartZeros r).data.length).then
          (cmpStr (trimStartZeros l) (trimStartZeros r))).then
          (compare l.data.length r.data.length)
      | true, false => .lt
      | false, true => .gt
      | false, false => cmpStr l r
    match o with
    | .eq => cmpBuildIds ls rs
    | o => o

/-- `semver::Version` (parsed form). -/
structure SemVer where
  major : Nat
  minor : Nat
  patch : Nat
  pre : List String
  build : List String
deriving DecidableEq, Repr

/-- `Ord for semver::Version`. -/
def cmpSemVer (a b : SemVer) : Ordering :=
  (compare a.major b.major).then
    ((compare a.minor b.minor).then
      ((compare a.patch b.patch).then
        ((cmpPre a.pre b.pre).then (cmpBuildIds a.build b.build))))

/-- Digits of an ASCII-decimal string as a number. -/
def digitsToNat (l : List Char) : Nat :=
  l.foldl (fun acc c => acc * 10 + (c.toNat - 48)) 0

/-- A numeric version component: non-empty digits without leading zeros. -/
def numericNoLeadZero (s : String) : Bool :=
  match s.data with
  | [] => false
  | c :: rest => (c :: rest).all Char.isDigit && (rest.isEmpty || c ≠ '0')

/-- SemVer identifier characters: ASCII alphanumerics and hyphen. -/
def isIdentChar (c : Char) : Bool :=
  c.isAlphanum || c = '-'

/-- Valid prerelease identifier: non-empty, identifier characters, and no
leading zeros when fully numeric. -/
def validPreId (s : String) : Bool :=
  !s.data.isEmpty && s.data.all isIdentChar &&
    (if strAllDigits s then numericNoLeadZero s else true)

/-- Valid build-metadata identifier: non-empty identifier characters
(leading zeros allowed). -/
def validBuildId (s : String) : Bool :=
  !s.data.isEmpty && s.data.all isIdentChar

/-- Join strings with `-` (inverse of splitting a prerelease that itself
contains hyphens). -/
def joinWithDash (l : List String) : String :=
  ⟨List.intercalate ['-'] (l.map String.data)⟩

/-- `semver::Version::parse`: `major.minor.patch` with optional
`-prerelease` (up to the first `+`) and `+build`. -/
def parseSemVer (input : String) : Option SemVer :=
  let plusParts := strSplitOn '+' input
  let withBuild : Option (String × Option String) :=
    match plusParts with
    | [vp] => some (vp, none)
    | [vp, b] => some (vp, some b)
    | _ => none
  match withBuild with
  | none => none
  | some (vp, buildStr) =>
    let dashParts := strSplitOn '-' vp
    match dashParts with
    | [] => none
    | core :: preParts =>
      let preStr : Option String :=
        if preParts.isEmpty then none else some (joinWithDash preParts)
      match strSplitOn '.' core with
      | [ma, mi, pa] =>
        if numericNoLeadZero ma && numericNoLeadZero mi && numericNoLeadZero pa then
          let pre :=
            match preStr with
            | none => some []
            | some p =>
              let ids := strSplitOn '.' p
              if ids.all validPreId then some ids else none
          let build :=
            match buildStr with
            | none => some []
            | some b =>
              let ids := strSplitOn '.' b
              if ids.all validBuildId then some ids else none
          match pre, build with
          | some pre, some build =>
            some ⟨digitsToNat ma.data, digitsToNat mi.data, digitsToNat pa.data, pre, build⟩
          | _, _ => none
        else none
      | _ => none

/-!
Plugin model and installer (`src/models/plugin.rs`,
`src/services/plugin_service.rs`). Filesystem and database effects are
threaded explicitly: each effectful call site of the Rust code becomes an
oracle field recording that call's outcome, and the installer manipulates a
record of the three resources the rollback claims talk about. -/

/-- `PluginType` (`models/plugin.rs`). -/
inductive PluginType where
  | python
  | javascript
deriving DecidableEq, Repr

/-- `PythonDependencies` (`models/plugin.rs`). -/
inductive PythonDependencies where
  | requirements (path : String)
  | pyproject (path : String)
deriving DecidableEq, Repr

/-- The `Plugin` row as the services read and write it (`plugin_id`,
`min_atom_node_version` and the parsed `parameters` list included; the
source keeps `parameters`/`python_dependencies` as JSON strings). -/
structure Plugin where
  id : String
  plugin_id : String
  name : String
  version : String
  min_atom_node_version : Option String
  plugin_type : PluginType
  description : String
  author : String
  plugin_path : String
  entry_point : String
  enabled : Bool
  created_at : Int
  updated_at : Int
  parameters : Option (List PluginParameter)
  python_venv_path : Option String
  python_dependencies : Option String

/-- `PackageMetadata` (`plugin_service.rs:14`). -/
structure PackageMetadata where
  plugin_id : Option String
  name : String
  version : String
  plugin_type : String
  description : String
  author : String
  entry_point : String
  parameters : Option (List PluginParameter)

/-- Unix path component (`std::path::Component`; no prefixes, and `RootDir`
is handled by the absolute flag). -/
inductive PathComp where
  | parentDir
  | curDir
  | normal (s : String)
deriving DecidableEq, Repr

/-- Unix absolute path test (`Path::is_absolute`). -/
def isAbsolutePath (s : String) : Bool :=
  match s.data with
  | '/' :: _ => true
  | _ => false

/-- One path piece as a component. -/
def toPathComp (piece : String) : PathComp :=
  if piece = "." then .curDir
  else if piece = ".." then .parentDir
  else .normal piece

/-- `Path::components` on Unix: split on `/`, drop empty pieces. Rust also
drops interior `.` components; we keep them, which is equivalent here
because every consumer below treats `curDir` as a no-op. -/
def pathComponents (s : String) : List PathComp :=
  ((strSplitOn '/' s).filter fun piece => !strIsEmpty piece).map toPathComp

/-- `PluginService::validate_plugin_id` (`plugin_service.rs:575`): no
separators, not absolute, exactly one normal component. -/
def validatePluginId (plugin_id : String) : Except AppError Unit :=
  if plugin_id.data.contains '/' || plugin_id.data.contains '\\' then
    .error (.execution "Plugin id cannot contain path separators")
  else if isAbsolutePath plugin_id then
    .error (.execution "Plugin id must be a relative identifier")
  else
    match pathComponents plugin_id with
    | .normal _ :: rest =>
      if rest.isEmpty then .ok ()
      else .error (.execution "Plugin id must be a single path segment")
    | _ => .error (.execution "Plugin id must be a valid identifier")

/-- `PluginService::normalize_plugin_id` (`plugin_service.rs:525`). -/
def normalizePluginId (plugin_id : Option String) (name : String) : Except AppError String :=
  let raw := plugin_id.getD name
  let trimmed := strTrim raw
  if strIsEmpty trimmed then
    .error (.execution "Plugin id cannot be empty")
  else if trimmed ≠ raw then
    .error (.execution "Plugin id has leading/trailing whitespace")
  else
    match validatePluginId trimmed with
    | .error e => .error e
    | .ok () => .ok trimmed

/-- `PluginService::parse_plugin_type` (`plugin_service.rs:474`). -/
def parsePluginType (raw : String) : Except AppError PluginType :=
  if raw = "python" then .ok .python
  else if raw = "javascript" || raw = "js" then .ok .javascript
  else .error .invalidPluginType

/-- `PluginService::validate_entry_point` (`plugin_service.rs:482`): the
entry point must be relative and free of parent-dir components. -/
def validateEntryPoint (entry_point : String) : Except AppError Unit :=
  if isAbsolutePath entry_point then
    .error (.execution "Entry point must be a relative path")
  else if (pathComponents entry_point).contains .parentDir then
    .error (.execution "Entry point cannot contain parent-dir components")
  else .ok ()

/-- `PluginService::resolve_entry_point` (`plugin_service.rs:500`):
validate; accept the root-relative entry if the file exists there, else try
the metadata directory (re-validated), else fail. The two `is_file` probes
are oracles. -/
def resolveEntryPoint (entry_point : String) (rootFound : Bool)
    (metadata_dir : Option String) (fallbackFound : Bool) : Except AppError String :=
  match validateEntryPoint entry_point with
  | .error e => .error e
  | .ok () =>
    if rootFound then .ok entry_point
    else
      match metadata_dir with
      | some dir =>
        let candidate := dir ++ "/" ++ entry_point
        match validateEntryPoint candidate with
        | .error e => .error e
        | .ok () =>
          if fallbackFound then .ok candidate
          else .error (.execution "Entry point not found")
      | none => .error (.execution "Entry point not found")

/-- `PluginService::ensure_newer_version` (`plugin_service.rs:546`): the
candidate must parse, the installed version must parse, and
`candidate <= current` (full semver `Ord`) is rejected. -/
def ensureNewerVersion (candidate current : String) : Except AppError Unit :=
  if strIsEmpty (strTrim candidate) then
    .error (.execution "Plugin version cannot be empty")
  else
    match parseSemVer (strTrim candidate) with
    | none => .error (.execution "Invalid plugin version")
    | some vc =>
      match parseSemVer (strTrim current) with
      | none => .error (.execution "Invalid installed plugin version")
      | some vcur =>
        if cmpSemVer vc vcur ≠ .gt then
          .error (.execution "Plugin version is not newer than installed version")
        else .ok ()

/-- `ExecutionService::ensure_min_atom_node_version`
(`execution_service.rs:450`); the host version (parsed
`CARGO_PKG_VERSION`) is a parameter. -/
def ensureMinAtomNodeVersion (required : Option String) (hostVersion : SemVer) : Except AppError Unit :=
  match required with
  | none => .ok ()
  | some required =>
    if strIsEmpty (strTrim required) then
      .error (.execution "Minimum atom_node version cannot be empty")
    else
      match parseSemVer (strTrim required) with
      | none => .error (.execution "Invalid minimum atom_node version")
      | some req =>
        if cmpSemVer hostVersion req = .lt then
          .error (.execution "Plugin requires a newer atom_node")
        else .ok ()

/-- The three rollback-tracked resources of an install:
`plugins/<plugin_id>`, `data/python_envs/<plugin_id>`, the plugin row. -/
structure InstallFS where
  pluginDir : Bool
  envDir : Bool
  row : Bool
deriving DecidableEq, Repr

/-- Outcomes of the effectful calls inside
`PluginService::install_plugin_from_bytes`, in program order. -/
structure InstallEnv where
  metadataResult : Except AppError (PackageMetadata × Option String)
  repoHasPlugin : Bool
  extractResult : Except AppError Unit
  entryRootFound : Bool
  entryFallbackFound : Bool
  resolvedDeps : Option PythonDependencies
  serializeDepsResult : Except AppError String
  prepareEnvResult : Except AppError Unit
  createRowResult : Except AppError Unit
  internalId : String
  now : Int

/-- `PluginService::install_plugin_from_bytes` (`plugin_service.rs:138-246`):
metadata, id normalisation, uniqueness, entry-point/type/parameter checks,
then directory creation, extraction, entry resolution, the Python
environment branch, and the row insert — each failure path removing exactly
the directories the source removes. -/
def installPluginFromBytes (env : InstallEnv) (fs : InstallFS) : Except AppError Plugin × InstallFS :=
  match env.metadataResult with
  | .error e => (.error e, fs)
  | .ok (spec, metadata_dir) =>
    match normalizePluginId spec.plugin_id spec.name with
    | .error e => (.error e, fs)
    | .ok plugin_id =>
      if env.repoHasPlugin then
        (.error (.pluginAlreadyExists plugin_id), fs)
      else if strIsEmpty (strTrim spec.entry_point) then
        (.error (.execution "Entry point cannot be empty"), fs)
      else
        match parsePluginType spec.plugin_type with
        | .error e => (.error e, fs)
        | .ok plugin_type =>
          match validateParameters spec.parameters with
          | .error e => (.error e, fs)
          | .ok parameters_json =>
            let plugin_dir := "plugins/" ++ plugin_id
            let fs1 : InstallFS := { fs with pluginDir := true }
            match env.extractResult with
            | .error e => (.error e, { fs1 with pluginDir := false })
            | .ok () =>
              match resolveEntryPoint spec.entry_point env.entryRootFound
                  metadata_dir env.entryFallbackFound with
              | .error e => (.error e, { fs1 with pluginDir := false })
              | .ok entry_point =>
                match plugin_type with
                | .javascript =>
                  let plugin : Plugin :=
                    { id := env.internalId, plugin_id := plugin_id
                      name := spec.name, version := spec.version
                      min_atom_node_version := none
                      plugin_type := .javascript
                      description := spec.description, author := spec.author
                      plugin_path := plugin_dir, entry_point := entry_point
                      enabled := true
                      created_at := env.now, updated_at := env.now
                      parameters := parameters_json
                      python_venv_path := none, python_dependencies := none }
                  match env.createRowResult with
                  | .error e => (.error e, { fs1 with pluginDir := false })
                  | .ok () => (.ok plugin, { fs1 with row := true })
                | .python =>
                  let serialized : Except AppError (Option String) :=
                    match env.resolvedDeps with
                    | some _ =>
                      match env.serializeDepsResult with
                      | .error e => .error e
                      | .ok json => .ok (some json)
                    | none => .ok none
                  match serialized with
                  | .error e => (.error e, { fs1 with pluginDir := false, envDir := false })
                  | .ok deps_json =>
                    let fs2 : InstallFS := { fs1 with envDir := true }
                    match env.prepareEnvResult with
                    | .error e => (.error e, { fs2 with pluginDir := false, envDir := false })
                    | .ok () =>
                      let plugin : Plugin :=
                        { id := env.internalId, plugin_id := plugin_id
                          name := spec.name, version := spec.version
                          min_atom_node_version := none
                          plugin_type := .python
                          description := spec.description, author := spec.author
                          plugin_path := plugin_dir, entry_point := entry_point
                          enabled := true
                          created_at := env.now, updated_at := env.now
                          parameters := parameters_json
                          python_venv_path := some ("data/python_envs/" ++ plugin_id)
                          python_dependencies := deps_json }
                      match env.createRowResult with
                      | .error e => (.error e, { fs2 with pluginDir := false, envDir := false })
                      | .ok () => (.ok plugin, { fs2 with row := true })

/-- Outcomes of the effectful calls inside `PluginService::update_plugin`
(`plugin_service.rs:61-107`), in program order. -/
structure UpdateEnv where
  existing : Option Plugin
  fetchOk : Bool
  tempDirOk : Bool
  extractResult : Except AppError Unit
  metadataResult : Except AppError (PackageMetadata × Option String)
  entryRootFound : Bool
  entryFallbackFound : Bool
  uninstallResult : Except AppError Unit
  installResult : Except AppError Plugin

/-- Result of an update attempt plus whether the existing plugin was
uninstalled. -/
structure UpdateOutcome where
  result : Except AppError Plugin
  uninstallCalled : Bool

/-- `PluginService::update_plugin`: load existing, fetch, extract to a temp
directory, parse and validate the candidate, require a strictly newer
version, and only then uninstall the existing plugin and reinstall. -/
def updatePlugin (id : String) (env : UpdateEnv) : UpdateOutcome :=
  match env.existing with
  | none => ⟨.error (.pluginNotFound id), false⟩
  | some existing =>
    if !env.fetchOk then ⟨.error (.execution "Failed to read package"), false⟩
    else if !env.tempDirOk then ⟨.error (.execution "Failed to create temp dir"), false⟩
    else
      match env.extractResult with
      | .error e => ⟨.error e, false⟩
      | .ok () =>
        match env.metadataResult with
        | .error e => ⟨.error e, false⟩
        | .ok (spec, metadata_dir) =>
          match normalizePluginId spec.plugin_id spec.name with
          | .error e => ⟨.error e, false⟩
          | .ok plugin_id =>
            if plugin_id ≠ id then
              ⟨.error (.execution "Plugin id does not match update target"), false⟩
            else if strIsEmpty (strTrim spec.entry_point) then
              ⟨.error (.execution "Entry point cannot be empty"), false⟩
            else
              match parsePluginType spec.plugin_type with
              | .error e => ⟨.error e, false⟩
              | .ok _ =>
                match validateParameters spec.parameters with
                | .error e => ⟨.error e, false⟩
                | .ok _ =>
                  match resolveEntryPoint spec.entry_point env.entryRootFound
                      metadata_dir env.entryFallbackFound with
                  | .error e => ⟨.error e, false⟩
                  | .ok _ =>
                    match ensureNewerVersion spec.version existing.version with
                    | .error e => ⟨.error e, false⟩
                    | .ok () =>
                      match env.uninstallResult with
                      | .error e => ⟨.error e, true⟩
                      | .ok () =>
                        match env.installResult with
                        | .error e => ⟨.error e, true⟩
                        | .ok plugin => ⟨.ok plugin, true⟩

/-!
Execution rows and the two-phase state machine
(`src/models/execution.rs`, `src/repository/execution_repository.rs`,
`src/services/execution_service.rs`). Each repository UPDATE becomes a pure
row transformer; the background supervisor task becomes `supervise`; the
service-level call order becomes a step relation on the row paired with the
in-flight supervisor context captured by the spawned task. -/

/-- `ExecutionPhase` (`models/execution.rs`). -/
inductive ExecutionPhase where
  | prepare
  | apply
deriving DecidableEq, Repr

/-- `ExecutionStatus` (`models/execution.rs`). -/
inductive ExecutionStatus where
  | pending
  | running
  | previewReady
  | applying
  | completed
  | failed
  | stopped
deriving DecidableEq, Repr

/-- The `Execution` row (`models/execution.rs`). -/
structure Execution where
  id : String
  plugin_id : String
  phase : ExecutionPhase
  status : ExecutionStatus
  pid : Option Int
  exit_code : Option Int
  stdout : Option String
  stderr : Option String
  preview_payload : Option String
  confirm_token : Option String
  expires_at : Option Int
  started_at : Int
  finished_at : Option Int
deriving DecidableEq, Repr

/-- `PREVIEW_TTL_MS` (`execution_service.rs:20`): ten minutes. -/
def PREVIEW_TTL_MS : Int := 10 * 60 * 1000

/-- `ExecutionRepository::create_with_phase` (`execution_repository.rs:16`). -/
def createWithPhase (id plugin_id : String) (phase : ExecutionPhase) (now : Int) : Execution :=
  { id := id, plugin_id := plugin_id, phase := phase, status := .pending
    pid := none, exit_code := none, stdout := none, stderr := none
    preview_payload := none, confirm_token := none, expires_at := none
    started_at := now, finished_at := none }

/-- `ExecutionRepository::update_pid` (`execution_repository.rs:87`): record
the pid and set status `Running`. -/
def updatePid (e : Execution) (pid : Int) : Execution :=
  { e with pid := some pid, status := .running }

/-- `ExecutionRepository::update_result` (`execution_repository.rs:98`). -/
def updateResult (e : Execution) (stdout stderr : Option String)
    (exit_code : Option Int) (status : ExecutionStatus) (now : Int) : Execution :=
  { e with stdout := stdout, stderr := stderr, exit_code := exit_code
           status := status, finished_at := some now }

/-- `ExecutionRepository::mark_preview_ready` (`execution_repository.rs:125`):
store the captured stdout as both `stdout` and `preview_payload`, the fresh
token and expiry, and set status `PreviewReady`. -/
def markPreviewReady (e : Execution) (stdout stderr : Option String)
    (exit_code : Option Int) (confirm_token : String) (expires_at : Int)
    (now : Int) : Execution :=
  { e with stdout := stdout, stderr := stderr, exit_code := exit_code
           status := .previewReady, finished_at := some now
           preview_payload := stdout, confirm_token := some confirm_token
           expires_at := some expires_at }

/-- `ExecutionRepository::begin_apply` (`execution_repository.rs:155`):
switch to the apply phase, reset the run fields, refresh `started_at`, and
clear the confirm token. -/
def beginApply (e : Execution) (now : Int) : Execution :=
  { e with phase := .apply, status := .pending, pid := none, exit_code := none
           stdout := none, stderr := none, started_at := now
           finished_at := none, confirm_token := none }

/-- `ExecutionRepository::update_status` (`execution_repository.rs:172`). -/
def updateStatus (e : Execution) (status : ExecutionStatus) : Execution :=
  { e with status := status }

/-- The precondition block of `ExecutionService::apply_execution`
(`execution_service.rs:101-121`): phase `Prepare`, status `PreviewReady`,
matching confirm token, and unexpired preview (checked only when
`expires_at` is set). -/
def applyCheck (e : Execution) (confirm_token : String) (now : Int) : Except AppError Unit :=
  if e.phase ≠ .prepare then
    .error (.execution "Only preview executions can be applied")
  else if e.status ≠ .previewReady then
    .error (.execution "Execution is not ready to apply")
  else if e.confirm_token ≠ some confirm_token then
    .error (.execution "Invalid confirm token")
  else
    match e.expires_at with
    | some expires_at =>
      if now > expires_at then
        .error (.execution "Preview has expired, please run prepare again")
      else .ok ()
    | none => .ok ()

/-- Outcomes of the effectful calls inside `apply_execution` after the
precondition block, in program order. -/
structure ApplyEnv where
  plugin : Option Plugin
  hostVersion : SemVer
  now : Int
  beginNow : Int
  spawnOk : Bool
  spawnPid : Int

/-- `ExecutionService::apply_execution` (`execution_service.rs:95-156`):
precondition check, plugin gates, parameter resolution, then `begin_apply`
(the first row mutation) and the spawn. The pair is (call result, final row
state). -/
def applyExecution (e : Execution) (confirm_token : String)
    (provided : List (String × Json)) (env : ApplyEnv) :
    Except AppError Execution × Execution :=
  match applyCheck e confirm_token env.now with
  | .error err => (.error err, e)
  | .ok () =>
    match env.plugin with
    | none => (.error (.pluginNotFound e.plugin_id), e)
    | some plugin =>
      if !plugin.enabled then (.error .pluginDisabled, e)
      else
        match ensureMinAtomNodeVersion plugin.min_atom_node_version env.hostVersion with
        | .error err => (.error err, e)
        | .ok () =>
          match resolveParameters (plugin.parameters.getD []) provided with
          | .error err => (.error err, e)
          | .ok _ =>
            let e2 := beginApply e env.beginNow
            if env.spawnOk then (.ok e2, updatePid e2 env.spawnPid)
            else (.error (.execution "Failed to spawn process"), e2)

/-- The parameters the spawned background task captures
(`spawn_process`, `execution_service.rs:228-266`): the terminal status for
a clean exit and whether a successful run removes the work directory. -/
structure SupCtx where
  success_status : ExecutionStatus
  cleanup_on_success : Bool
deriving DecidableEq, Repr

/-- Row state plus work-directory fate after the supervisor finishes. -/
structure SupervisorOutcome where
  exec : Execution
  workDirRemoved : Bool
deriving DecidableEq, Repr

/-- The supervisor body after `child.wait()` returns a status
(`execution_service.rs:267-340`): a clean exit towards `PreviewReady`
stores the preview (expiry = exit-time + `PREVIEW_TTL_MS`) and removes the
work directory only when `keep_on_success` is false; otherwise the row gets
`success_status` or `Failed` and the directory is removed on failure or
when `cleanup_on_success` is set. `texit` is the clock read that stamps the
expiry, `tstore` the read inside the row update. -/
def supervise (e : Execution) (ctx : SupCtx) (exit_code : Option Int)
    (stdout stderr : Option String) (confirm_token : String)
    (texit tstore : Int) : SupervisorOutcome :=
  let keep_on_success := !ctx.cleanup_on_success && ctx.success_status == .previewReady
  if exit_code = some 0 ∧ ctx.success_status = .previewReady then
    { exec := markPreviewReady e stdout stderr exit_code confirm_token
        (texit + PREVIEW_TTL_MS) tstore
      workDirRemoved := !keep_on_success }
  else
    let exec_status := if exit_code = some 0 then ctx.success_status else .failed
    { exec := updateResult e stdout stderr exit_code exec_status tstore
      workDirRemoved := !(exit_code == some 0) || ctx.cleanup_on_success }

/-- The supervisor body when `child.wait()` itself errors
(`execution_service.rs:341-356`). -/
def superviseWaitError (e : Execution) (msg : String) (tstore : Int) : SupervisorOutcome :=
  { exec := updateResult e none (some ("Error: " ++ msg)) none .failed tstore
    workDirRemoved := true }

/-- One execution's service-visible state: its row and the context of the
in-flight supervisor task, if one is pending. -/
structure NodeState where
  exec : Execution
  supervisor : Option SupCtx

/-- States an execution can be created in: `prepare_plugin` rows
(phase `Prepare`, supervisor success `PreviewReady`, no cleanup),
`execute_plugin` rows (phase `Apply`, success `Completed`, cleanup), and
either with the spawn failed before a supervisor existed. -/
inductive Init : NodeState → Prop
  | prepareSpawned (id plugin_id : String) (now : Int) :
      Init ⟨createWithPhase id plugin_id .prepare now, some ⟨.previewReady, false⟩⟩
  | executeSpawned (id plugin_id : String) (now : Int) :
      Init ⟨createWithPhase id plugin_id .apply now, some ⟨.completed, true⟩⟩
  | prepareSpawnFailed (id plugin_id : String) (now : Int) :
      Init ⟨createWithPhase id plugin_id .prepare now, none⟩
  | executeSpawnFailed (id plugin_id : String) (now : Int) :
      Init ⟨createWithPhase id plugin_id .apply now, none⟩

/-- The transitions the services perform on one execution: recording the
pid, the supervisor finishing (normally or with a wait error), an explicit
stop, and an accepted apply (which re-spawns with success `Completed` and
cleanup, per `apply_execution`). -/
inductive Step : NodeState → NodeState → Prop
  | updatePidStep (e : Execution) (sup : Option SupCtx) (pid : Int) :
      Step ⟨e, sup⟩ ⟨updatePid e pid, sup⟩
  | supervisorExit (e : Execution) (ctx : SupCtx) (exit_code : Option Int)
      (stdout stderr : Option String) (tok : String) (texit tstore : Int) :
      Step ⟨e, some ctx⟩
        ⟨(supervise e ctx exit_code stdout stderr tok texit tstore).exec, none⟩
  | supervisorWaitErr (e : Execution) (ctx : SupCtx) (msg : String) (tstore : Int) :
      Step ⟨e, some ctx⟩ ⟨(superviseWaitError e msg tstore).exec, none⟩
  | stopStep (e : Execution) (sup : Option SupCtx) :
      Step ⟨e, sup⟩ ⟨updateStatus e .stopped, sup⟩
  | applyStep (e : Execution) (sup : Option SupCtx) (tok : String) (now beginNow : Int) :
      applyCheck e tok now = .ok () →
      Step ⟨e, sup⟩ ⟨beginApply e beginNow, some ⟨.completed, true⟩⟩

/-- States reachable from a creation state. -/
inductive Reachable : NodeState → Prop
  | init (s : NodeState) : Init s → Reachable s
  | step (s s' : NodeState) : Reachable s → Step s s' → Reachable s'

/-- The preview invariant: a `PreviewReady` row is a prepare-phase row with
a token, its payload mirrors its stdout, and its expiry is some exit time
plus the TTL; and a pending supervisor aiming at `PreviewReady` only exists
on prepare-phase rows. -/
def PreviewInv (s : NodeState) : Prop :=
  (s.exec.status = .previewReady →
    s.exec.phase = .prepare ∧ s.exec.confirm_token.isSome = true ∧
    s.exec.preview_payload = s.exec.stdout ∧
    ∃ t, s.exec.expires_at = some (t + PREVIEW_TTL_MS)) ∧
  (∀ ctx, s.supervisor = some ctx → ctx.success_status = .previewReady →
    s.exec.phase = .prepare)

/-- An execution used as a concrete preview-apply witness: a `PreviewReady`
prepare row with token `tok` expiring at 1000. -/
def samplePreviewExecution : Execution :=
  { id := "e1", plugin_id := "p1", phase := .prepare, status := .previewReady
    pid := none, exit_code := some 0, stdout := some "PLAN"
    stderr := none, preview_payload := some "PLAN"
    confirm_token := some "tok", expires_at := some 1000
    started_at := 0, finished_at := some 10 }

/-- A concrete apply environment whose clock is past the witness row's
expiry. -/
def sampleApplyEnv : ApplyEnv :=
  { plugin := none, hostVersion := ⟨0, 3, 0, [], []⟩
    now := 1001, beginNow := 1002, spawnOk := true, spawnPid := 7 }

/-- The concrete state of the C4 witness: a prepare execution whose
supervisor exited cleanly at time 5. -/
def sampleFinishedPreview : NodeState :=
  ⟨(supervise (createWithPhase "e1" "p1" .prepare 0) ⟨.previewReady, false⟩
      (some 0) (some "PLAN") none "tok" 5 6).exec, none⟩

/-- Decidable equality on `Except` results (for concrete evaluations). -/
instance exceptDecEq {ε α : Type} [DecidableEq ε] [DecidableEq α] :
    DecidableEq (Except ε α) := fun x y =>
  match x, y with
  | .error a, .error b =>
    if h : a = b then .isTrue (by rw [h])
    else .isFalse (by intro hc; cases hc; exact h rfl)
  | .ok a, .ok b =>
    if h : a = b then .isTrue (by rw [h])
    else .isFalse (by intro hc; cases hc; exact h rfl)
  | .error a, .ok b => .isFalse (by intro hc; cases hc)
  | .ok a, .error b => .isFalse (by intro hc; cases hc)

/-- An installed plugin row at version `1.2.0` used as a concrete update
target. -/
def sampleInstalledPlugin : Plugin :=
  { id := "uuid-0", plugin_id := "hello", name := "hello", version := "1.2.0"
    min_atom_node_version := none, plugin_type := .javascript
    description := "", author := "", plugin_path := "plugins/hello"
    entry_point := "index.js", enabled := true, created_at := 0, updated_at := 0
    parameters := none, python_venv_path := none, python_dependencies := none }

/-- Candidate metadata carrying the same version `1.2.0` as the installed
plugin. -/
def sampleSameVersionMetadata : PackageMetadata :=
  { plugin_id := some "hello", name := "hello", version := "1.2.0"
    plugin_type := "javascript", description := "", author := ""
    entry_point := "index.js", parameters := none }

/-- A concrete update environment: everything up to the version gate
succeeds, but the candidate version equals the installed one. -/
def sampleUpdateEnv : UpdateEnv :=
  { existing := some sampleInstalledPlugin
    fetchOk := true, tempDirOk := true
    extractResult := .ok ()
    metadataResult := .ok (sampleSameVersionMetadata, none)
    entryRootFound := true, entryFallbackFound := false
    uninstallResult := .ok (), installResult := .error (.execution "unused") }

/-- Metadata of the C3 witness install: a well-formed javascript plugin. -/
def sampleInstallMetadata : PackageMetadata :=
  { plugin_id := some "hello", name := "hello", version := "1.0.0"
    plugin_type := "javascript", description := "", author := ""
    entry_point := "index.js", parameters := none }

/-- A concrete install environment whose archive extraction fails after the
plugin directory was created. -/
def sampleFailingInstallEnv : InstallEnv :=
  { metadataResult := .ok (sampleInstallMetadata, none)
    repoHasPlugin := false
    extractResult := .error (.execution "Invalid zip archive")
    entryRootFound := true, entryFallbackFound := false
    resolvedDeps := none
    serializeDepsResult := .ok ""
    prepareEnvResult := .ok ()
    createRowResult := .ok ()
    internalId := "uuid-1", now := 0 }

/-!
Archive extraction (`PluginService::extract_zip`,
`plugin_service.rs:253-287`). An archive is a list of entries carrying the
raw enclosed name, the stored POSIX mode bits (`unix_mode()`), and the file
bytes. The zip crate's `enclosed_name` is the per-entry guard: it rejects
names containing NUL, absolute names, and names whose parent-dir components
would climb above the extraction root (a running depth that underflows);
interior `..` that stays inside is accepted. The filesystem is modelled at
the path level: a written file is recorded with its OS-resolved path
(`..`/`.` normalised against the join base) and the permissions
`File::create` gives it — the source never calls `set_permissions`, so the
executable bit is always clear. -/

/-- One archive entry. -/
structure ZipEntry where
  name : String
  unixMode : Option Nat
  data : List Nat
deriving DecidableEq, Repr

/-- A file materialised by extraction: its resolved absolute path (as
components), its bytes, and whether its permissions carry an executable
bit. -/
structure WrittenFile where
  path : List String
  contents : List Nat
  exec : Bool
deriving DecidableEq, Repr

/-- The depth scan of the zip crate's `enclosed_name`: `..` pops one level
and fails on underflow, `.` is skipped, normal components push. -/
def enclosedDepthOk : List PathComp → Nat → Bool
  | [], _ => true
  | .parentDir :: _, 0 => false
  | .parentDir :: rest, d + 1 => enclosedDepthOk rest d
  | .curDir :: rest, d => enclosedDepthOk rest d
  | .normal _ :: rest, d => enclosedDepthOk rest (d + 1)

/-- `ZipFile::enclosed_name`: `None` on NUL bytes, absolute names
(`RootDir`/prefix components), or a parent-dir underflow; otherwise the
component list of the name. -/
def enclosedName (name : String) : Option (List PathComp) :=
  if name.data.contains (Char.ofNat 0) then none
  else if isAbsolutePath name then none
  else if enclosedDepthOk (pathComponents name) 0 then some (pathComponents name)
  else none

/-- OS-level resolution of `base.join(components)`: `..` removes the last
component of the path built so far, `.` is inert. -/
def normJoin : List String → List PathComp → List String
  | base, [] => base
  | base, .parentDir :: rest => normJoin base.dropLast rest
  | base, .curDir :: rest => normJoin base rest
  | base, .normal s :: rest => normJoin (base ++ [s]) rest

/-- Rust `str::ends_with('/')`, the directory-entry test of the loop. -/
def strEndsWithSlash (s : String) : Bool :=
  match s.data.getLast? with
  | some c => c = '/'
  | none => false

/-- Outcome of an extraction run: the files written (in order) and the
error that stopped it, if any. Entries already materialised before a
failing entry remain on disk (the caller rolls back). -/
structure ExtractResult where
  written : List WrittenFile
  error : Option String
deriving DecidableEq, Repr

/-- The entry loop of `extract_zip`: each entry's enclosed name is checked
first; a rejected name stops the run before that entry is written;
directory entries only create directories; file entries are written with
default (non-executable) permissions — the source sets none. -/
def extractLoop (target : List String) : List ZipEntry → List WrittenFile → ExtractResult
  | [], written => { written := written, error := none }
  | entry :: rest, written =>
    match enclosedName entry.name with
    | none => { written := written, error := some "Invalid file path in archive" }
    | some comps =>
      if strEndsWithSlash entry.name then
        extractLoop target rest written
      else
        extractLoop target rest
          (written ++ [{ path := normJoin target comps, contents := entry.data, exec := false }])

/-- `PluginService::extract_zip`: run the loop over all entries against the
target directory. -/
def extractZip (entries : List ZipEntry) (target : List String) : ExtractResult :=
  extractLoop target entries []

/-! Theorems. -/

example : strSplitOn '.' "1.2.3" = ["1", "2", "3"] := by decide

example : strSplitOn '.' "" = [""] := by decide

example : strSplitOn '.' "a..b" = ["a", "", "b"] := by decide

example : resolveParameters [] [] = .ok [] := rfl

example :
    resolveParameters [] [("a", Json.str "x")] =
      .error (.execution "Plugin does not declare parameters") := rfl

example : (validateParameters (some [paramDefaultOutsideChoices])).isOk = true := by decide

/-! Association-list facts used throughout (the services keep `HashMap`s
keyed by parameter name; lookups search the insertion-ordered list). -/

theorem lookup_append_some {β : Type} {l₁ l₂ : List (String × β)} {n : String} {v : β}
    (h : l₁.lookup n = some v) : (l₁ ++ l₂).lookup n = some v := by
  induction l₁ with
  | nil => simp [List.lookup] at h
  | cons kv rest ih =>
    obtain ⟨k, w⟩ := kv
    simp only [List.cons_append, List.lookup]
    simp only [List.lookup] at h
    cases hk : (n == k) with
    | true => simpa [hk] using h
    | false =>
      simp only [hk] at h ⊢
      exact ih h

theorem lookup_append_none {β : Type} {l₁ l₂ : List (String × β)} {n : String}
    (h : l₁.lookup n = none) : (l₁ ++ l₂).lookup n = l₂.lookup n := by
  induction l₁ with
  | nil => simp
  | cons kv rest ih =>
    obtain ⟨k, w⟩ := kv
    simp only [List.cons_append, List.lookup]
    simp only [List.lookup] at h
    cases hk : (n == k) with
    | true => simp [hk] at h
    | false =>
      simp only [hk] at h ⊢
      exact ih h

theorem lookup_none_of_keys_ne {β : Type} {l : List (String × β)} {n : String}
    (h : ∀ kv ∈ l, kv.1 ≠ n) : l.lookup n = none := by
  induction l with
  | nil => simp
  | cons kv rest ih =>
    obtain ⟨k, w⟩ := kv
    have hk : k ≠ n := h (k, w) (List.mem_cons_self _ _)
    have hbeq : (n == k) = false := beq_eq_false_iff_ne.mpr (Ne.symm hk)
    simp only [List.lookup, hbeq]
    exact ih fun kv hkv => h kv (List.mem_cons_of_mem _ hkv)

theorem lookup_name_map_mem {schema : List PluginParameter} {n : String} {param : PluginParameter}
    (h : (schema.map fun p => (p.name, p)).lookup n = some param) :
    param ∈ schema ∧ param.name = n := by
  induction schema with
  | nil => simp [List.lookup] at h
  | cons p rest ih =>
    simp only [List.map_cons, List.lookup] at h
    cases hk : (n == p.name) with
    | true =>
      simp only [hk] at h
      cases h
      exact ⟨List.mem_cons_self _ _, (beq_iff_eq.mp hk).symm⟩
    | false =>
      simp only [hk] at h
      obtain ⟨hm, hn⟩ := ih h
      exact ⟨List.mem_cons_of_mem _ hm, hn⟩

/-- Successful schema-map construction appends exactly the `(name, param)`
pairs of the schema (each accepted name equals its trimmed form). -/
theorem buildSchemaMap_ok_eq {schema : List PluginParameter}
    {acc smap : List (String × PluginParameter)}
    (h : buildSchemaMap schema acc = .ok smap) :
    smap = acc ++ schema.map fun p => (p.name, p) := by
  induction schema generalizing acc with
  | nil =>
    simp only [buildSchemaMap] at h
    cases h
    simp
  | cons p rest ih =>
    simp only [buildSchemaMap] at h
    split at h
    · exact absurd h (by simp)
    · split at h
      · exact absurd h (by simp)
      · split at h
        · exact absurd h (by simp)
        · rename_i hne _
          have hname : strTrim p.name = p.name := by
            by_contra hc
            exact hne hc
          rw [hname] at h
          have := ih h
          simpa [List.append_assoc] using this

/-- Successful schema-map construction implies the schema names are
distinct and none of them collides with the accumulator keys. -/
theorem buildSchemaMap_ok_nodup {schema : List PluginParameter}
    {acc smap : List (String × PluginParameter)}
    (h : buildSchemaMap schema acc = .ok smap) :
    (schema.map PluginParameter.name).Nodup ∧
      ∀ p ∈ schema, acc.lookup p.name = none := by
  induction schema generalizing acc with
  | nil => simp
  | cons p rest ih =>
    simp only [buildSchemaMap] at h
    split at h
    · exact absurd h (by simp)
    · split at h
      · exact absurd h (by simp)
      · split at h
        · exact absurd h (by simp)
        · rename_i hne hlook
          have hname : strTrim p.name = p.name := by
            by_contra hc
            exact hne hc
          rw [hname] at h hlook
          obtain ⟨hnodup, hacc⟩ := ih h
          have hforall : ∀ q ∈ rest, acc.lookup q.name = none ∧ q.name ≠ p.name := by
            intro q hq
            have hq2 := hacc q hq
            constructor
            · by_contra hc
              rcases Option.ne_none_iff_exists.mp hc with ⟨v, hv⟩
              have := @lookup_append_some _ _ [(p.name, p)] _ _ hv.symm
              rw [this] at hq2
              cases hq2
            · intro hqp
              have hnone : acc.lookup q.name = none := by
                by_contra hc
                rcases Option.ne_none_iff_exists.mp hc with ⟨v, hv⟩
                have := @lookup_append_some _ _ [(p.name, p)] _ _ hv.symm
                rw [this] at hq2
                cases hq2
              rw [lookup_append_none hnone] at hq2
              simp [List.lookup, hqp] at hq2
          refine ⟨?_, ?_⟩
          · simp only [List.map_cons, List.nodup_cons]
            refine ⟨?_, hnodup⟩
            intro hmem
            rcases List.mem_map.mp hmem with ⟨q, hq, hqn⟩
            exact (hforall q hq).2 hqn
          · intro q hq
            rcases List.mem_cons.mp hq with hq | hq
            · subst hq
              by_contra hc
              rcases Option.ne_none_iff_exists.mp hc with ⟨v, hv⟩
              rw [← hv] at hlook
              exact hlook rfl
            · exact (hforall q hq).1

/-- Every provided entry accepted by the provided-value loop has a schema
entry it was checked against (type and choices). -/
theorem resolveProvided_ok_all {smap : List (String × PluginParameter)}
    {provided acc out : List (String × Json)}
    (h : resolveProvided smap provided acc = .ok out) :
    ∀ nv ∈ provided, ∃ param, smap.lookup nv.1 = some param ∧
      param.param_type.matches nv.2 = true ∧ ensureChoice param nv.2 = .ok () := by
  induction provided generalizing acc with
  | nil => simp
  | cons nv rest ih =>
    obtain ⟨n, v⟩ := nv
    simp only [resolveProvided] at h
    split at h
    · exact absurd h (by simp)
    · rename_i param hparam
      split at h
      · rename_i hmatch
        split at h
        · exact absurd h (by simp)
        · rename_i hchoice
          intro nv hnv
          rcases List.mem_cons.mp hnv with hnv | hnv
          · subst hnv
            exact ⟨param, hparam, hmatch, hchoice⟩
          · exact ih h nv hnv
      · exact absurd h (by simp)

/-- The provided-value loop, when it succeeds, returns the accumulator
followed by the provided entries in order. -/
theorem resolveProvided_ok_eq {smap : List (String × PluginParameter)}
    {provided acc out : List (String × Json)}
    (h : resolveProvided smap provided acc = .ok out) :
    out = acc ++ provided := by
  induction provided generalizing acc with
  | nil =>
    simp only [resolveProvided] at h
    cases h
    simp
  | cons nv rest ih =>
    obtain ⟨n, v⟩ := nv
    simp only [resolveProvided] at h
    split at h
    · exact absurd h (by simp)
    · split at h
      · split at h
        · exact absurd h (by simp)
        · have := ih h
          simpa [List.append_assoc] using this
      · exact absurd h (by simp)

/-- An `Except` value is an `ok` or an `error`. -/
theorem except_ok_or_error {ε α : Type} (x : Except ε α) :
    (∃ a, x = .ok a) ∨ ∃ e, x = .error e := by
  cases x with
  | ok a => exact Or.inl ⟨a, rfl⟩
  | error e => exact Or.inr ⟨e, rfl⟩

/-- Entries already resolved survive default filling (the loop only appends
new names). -/
theorem fillDefaults_preserves {schema : List PluginParameter}
    {resolved out : List (String × Json)} {n : String} {v : Json}
    (h : fillDefaults schema resolved = .ok out)
    (hv : resolved.lookup n = some v) : out.lookup n = some v := by
  induction schema generalizing resolved with
  | nil =>
    simp only [fillDefaults] at h
    cases h
    exact hv
  | cons p rest ih =>
    simp only [fillDefaults] at h
    split at h
    · exact ih h hv
    · split at h
      · split at h
        · exact absurd h (by simp)
        · exact ih h (lookup_append_some hv)
      · exact absurd h (by simp)

/-- When default filling succeeds, every schema parameter was either
already resolved or carried a default that passed its choices check. -/
theorem fillDefaults_ok_all {schema : List PluginParameter}
    {resolved out : List (String × Json)}
    (hnodup : (schema.map PluginParameter.name).Nodup)
    (h : fillDefaults schema resolved = .ok out) :
    ∀ p ∈ schema, (resolved.lookup p.name).isSome = true ∨
      ∃ d, p.default = some d ∧ ensureChoice p d = .ok () := by
  induction schema generalizing resolved with
  | nil => simp
  | cons q rest ih =>
    simp only [List.map_cons, List.nodup_cons] at hnodup
    obtain ⟨hq_not, hnodup⟩ := hnodup
    simp only [fillDefaults] at h
    split at h
    · rename_i hfound
      intro p hp
      rcases List.mem_cons.mp hp with hp | hp
      · subst hp
        exact Or.inl hfound
      · exact ih hnodup h p hp
    · rename_i hnotfound
      split at h
      · rename_i d hd
        split at h
        · exact absurd h (by simp)
        · rename_i hchoice
          intro p hp
          rcases List.mem_cons.mp hp with hp | hp
          · subst hp
            exact Or.inr ⟨d, hd, hchoice⟩
          · have hres := ih hnodup h p hp
            rcases hres with hres | hres
            · left
              by_cases hcase : (resolved.lookup p.name).isSome = true
              · exact hcase
              · exfalso
                have hnone : resolved.lookup p.name = none := by
                  cases hval : resolved.lookup p.name with
                  | none => rfl
                  | some v => rw [hval] at hcase; exact absurd rfl hcase
                rw [lookup_append_none hnone] at hres
                have hpq : p.name ≠ q.name := by
                  intro he
                  exact hq_not (List.mem_map.mpr ⟨p, hp, he⟩)
                simp [List.lookup, beq_eq_false_iff_ne.mpr hpq] at hres
            · exact Or.inr hres
      · exact absurd h (by simp)

/-- When default filling succeeds and a schema parameter was not already
resolved, its default value appears in the output under its name. -/
theorem fillDefaults_ok_filled {schema : List PluginParameter}
    {resolved out : List (String × Json)} {p : PluginParameter} {d : Json}
    (hnodup : (schema.map PluginParameter.name).Nodup)
    (h : fillDefaults schema resolved = .ok out)
    (hp : p ∈ schema) (hmiss : resolved.lookup p.name = none)
    (hd : p.default = some d) : out.lookup p.name = some d := by
  induction schema generalizing resolved with
  | nil => simp at hp
  | cons q rest ih =>
    simp only [List.map_cons, List.nodup_cons] at hnodup
    obtain ⟨hq_not, hnodup⟩ := hnodup
    simp only [fillDefaults] at h
    rcases List.mem_cons.mp hp with hpq | hp_rest
    · subst hpq
      split at h
      · rename_i hfound
        rw [hmiss] at hfound
        simp at hfound
      · split at h
        · rename_i d2 hd2
          rw [hd] at hd2
          cases hd2
          split at h
          · exact absurd h (by simp)
          · refine fillDefaults_preserves h ?_
            rw [lookup_append_none hmiss]
            simp [List.lookup]
        · rename_i hnone
          rw [hd] at hnone
          cases hnone
    · have hpq : p.name ≠ q.name := by
        intro he
        exact hq_not (List.mem_map.mpr ⟨p, hp_rest, he⟩)
      split at h
      · exact ih hnodup h hp_rest hmiss
      · split at h
        · split at h
          · exact absurd h (by simp)
          · refine ih hnodup h hp_rest ?_
            rw [lookup_append_none hmiss]
            simp [List.lookup, beq_eq_false_iff_ne.mpr hpq]
        · exact absurd h (by simp)

/-- Inversion for a successful `resolve_parameters` run: either both schema
and provided were empty, or the schema map was built (names distinct), every
provided entry passed its checks against its schema entry, and default
filling on the provided entries succeeded. -/
theorem resolveParameters_ok_inv {schema : List PluginParameter}
    {provided out : List (String × Json)}
    (h : resolveParameters schema provided = .ok out) :
    (schema = [] ∧ provided = [] ∧ out = []) ∨
    (schema ≠ [] ∧ (schema.map PluginParameter.name).Nodup ∧
      (∀ nv ∈ provided, ∃ param, param ∈ schema ∧ param.name = nv.1 ∧
        param.param_type.matches nv.2 = true ∧ ensureChoice param nv.2 = .ok ()) ∧
      fillDefaults schema provided = .ok out) := by
  unfold resolveParameters at h
  split at h
  · rename_i hempty
    split at h
    · rename_i hpempty
      cases h
      exact Or.inl ⟨List.isEmpty_iff.mp hempty, List.isEmpty_iff.mp hpempty, rfl⟩
    · exact absurd h (by simp)
  · rename_i hne
    split at h
    · exact absurd h (by simp)
    · rename_i smap hsmap
      split at h
      · exact absurd h (by simp)
      · rename_i resolved hres
        have hmapeq := buildSchemaMap_ok_eq hsmap
        simp only [List.nil_append] at hmapeq
        subst hmapeq
        have hreseq := resolveProvided_ok_eq hres
        simp only [List.nil_append] at hreseq
        subst hreseq
        have hnodup := (buildSchemaMap_ok_nodup hsmap).1
        refine Or.inr ⟨?_, hnodup, ?_, h⟩
        · intro hnil
          subst hnil
          simp at hne
        · intro nv hnv
          obtain ⟨param, hlook, hm, hc⟩ := resolveProvided_ok_all hres nv hnv
          obtain ⟨hmem, hname⟩ := lookup_name_map_mem hlook
          exact ⟨param, hmem, hname, hm, hc⟩

/-- C6. Parameter resolution (`ExecutionService::resolve_parameters`):
empty schema with empty values yields the empty map; empty schema with
values fails; a provided name absent from the schema, a type mismatch, or a
choices violation fails; an unprovided schema parameter is filled from its
default with its choices re-checked, and resolution fails when the default
violates the choices or does not exist. -/
theorem c6_parameter_resolution :
    (resolveParameters [] [] = .ok []) ∧
    (∀ provided, provided ≠ [] →
      resolveParameters [] provided =
        .error (.execution "Plugin does not declare parameters")) ∧
    (∀ schema provided n v, (n, v) ∈ provided →
      (∀ p ∈ schema, p.name ≠ n) →
      ∃ e, resolveParameters schema provided = .error e) ∧
    (∀ schema provided n v, (n, v) ∈ provided →
      (∀ p ∈ schema, p.name = n → p.param_type.matches v = false) →
      ∃ e, resolveParameters schema provided = .error e) ∧
    (∀ schema provided n v cs, (n, v) ∈ provided →
      (∀ p ∈ schema, p.name = n → p.choices = some cs) →
      cs.any (fun c => Json.beq c v) = false →
      ∃ e, resolveParameters schema provided = .error e) ∧
    (∀ schema provided out p d, resolveParameters schema provided = .ok out →
      p ∈ schema → provided.lookup p.name = none → p.default = some d →
      out.lookup p.name = some d) ∧
    (∀ schema provided p d cs, p ∈ schema → provided.lookup p.name = none →
      p.default = some d → p.choices = some cs →
      cs.any (fun c => Json.beq c d) = false →
      ∃ e, resolveParameters schema provided = .error e) ∧
    (∀ schema provided p, p ∈ schema → provided.lookup p.name = none →
      p.default = none → ∃ e, resolveParameters schema provided = .error e) := by
  refine ⟨rfl, ?_, ?_, ?_, ?_, ?_, ?_, ?_⟩
  · intro provided hne
    cases provided with
    | nil => exact absurd rfl hne
    | cons nv rest => rfl
  · intro schema provided n v hnv habsent
    rcases except_ok_or_error (resolveParameters schema provided) with ⟨out, hok⟩ | he
    · rcases resolveParameters_ok_inv hok with ⟨_, hp, _⟩ | ⟨_, _, hall, _⟩
      · subst hp; simp at hnv
      · obtain ⟨param, hmem, hname, _, _⟩ := hall (n, v) hnv
        exact absurd hname (habsent param hmem)
    · exact he
  · intro schema provided n v hnv hbad
    rcases except_ok_or_error (resolveParameters schema provided) with ⟨out, hok⟩ | he
    · rcases resolveParameters_ok_inv hok with ⟨_, hp, _⟩ | ⟨_, _, hall, _⟩
      · subst hp; simp at hnv
      · obtain ⟨param, hmem, hname, hm, _⟩ := hall (n, v) hnv
        rw [hbad param hmem hname] at hm
        cases hm
    · exact he
  · intro schema provided n v cs hnv hcs hmiss
    rcases except_ok_or_error (resolveParameters schema provided) with ⟨out, hok⟩ | he
    · rcases resolveParameters_ok_inv hok with ⟨_, hp, _⟩ | ⟨_, _, hall, _⟩
      · subst hp; simp at hnv
      · obtain ⟨param, hmem, hname, _, hc⟩ := hall (n, v) hnv
        unfold ensureChoice at hc
        rw [hcs param hmem hname] at hc
        simp [hmiss] at hc
    · exact he
  · intro schema provided out p d hok hp hmiss hd
    rcases resolveParameters_ok_inv hok with ⟨hs, _, _⟩ | ⟨_, hnodup, _, hfill⟩
    · subst hs; simp at hp
    · exact fillDefaults_ok_filled hnodup hfill hp hmiss hd
  · intro schema provided p d cs hp hmiss hd hcs hviolate
    rcases except_ok_or_error (resolveParameters schema provided) with ⟨out, hok⟩ | he
    · rcases resolveParameters_ok_inv hok with ⟨hs, _, _⟩ | ⟨_, hnodup, _, hfill⟩
      · subst hs; simp at hp
      · rcases fillDefaults_ok_all hnodup hfill p hp with hsome | ⟨d2, hd2, hc2⟩
        · rw [hmiss] at hsome; cases hsome
        · rw [hd] at hd2
          cases hd2
          unfold ensureChoice at hc2
          rw [hcs] at hc2
          simp [hviolate] at hc2
    · exact he
  · intro schema provided p hp hmiss hd
    rcases except_ok_or_error (resolveParameters schema provided) with ⟨out, hok⟩ | he
    · rcases resolveParameters_ok_inv hok with ⟨hs, _, _⟩ | ⟨_, hnodup, _, hfill⟩
      · subst hs; simp at hp
      · rcases fillDefaults_ok_all hnodup hfill p hp with hsome | ⟨d2, hd2, _⟩
        · rw [hmiss] at hsome; cases hsome
        · rw [hd] at hd2; cases hd2
    · exact he

/-- Witness for C6: the empty-schema failure and the default-filling branch
at concrete inputs. -/
theorem c6_parameter_resolution_witness :
    resolveParameters [] [("a", Json.str "x")] =
      .error (.execution "Plugin does not declare parameters") ∧
    List.lookup "q" [("q", Json.str "d")] = some (Json.str "d") := by
  constructor
  · exact c6_parameter_resolution.2.1 [("a", Json.str "x")] (by simp)
  · exact c6_parameter_resolution.2.2.2.2.2.1 [paramStringWithDefault] []
      [("q", Json.str "d")] paramStringWithDefault (Json.str "d") (by rfl)
      (by simp) (by rfl) (by rfl)

/-- C7 counterexample: a schema whose only parameter declares
`default = "x"` and `choices = ["a"]` — the default is not a member of the
choices — yet `validate_parameters` accepts it at install time. -/
theorem c7_counterexample :
    (validateParameters (some [paramDefaultOutsideChoices])).isOk = true ∧
    paramDefaultOutsideChoices.default = some (Json.str "x") ∧
    paramDefaultOutsideChoices.choices = some [Json.str "a"] ∧
    ([Json.str "a"].any fun c => Json.beq c (Json.str "x")) = false := by
  refine ⟨by decide, rfl, rfl, by decide⟩

/-- C7 amended: install-time schema validation does not check the default
against the choices (it only checks names and the default's type), so a
default outside the choices passes validation; the violation is instead
caught at execution time, when `resolve_parameters` re-checks the default
against the choices and fails. -/
theorem c7_default_choices_validation :
    (∀ p : PluginParameter, strIsEmpty (strTrim p.name) = false →
      strTrim p.name = p.name →
      (∀ d, p.default = some d → p.param_type.matches d = true) →
      validateParameters (some [p]) = .ok (some [p])) ∧
    (∀ (schema : List PluginParameter) (provided : List (String × Json)) p d cs,
      p ∈ schema → provided.lookup p.name = none →
      p.default = some d → p.choices = some cs →
      cs.any (fun c => Json.beq c d) = false →
      ∃ e, resolveParameters schema provided = .error e) := by
  constructor
  · intro p h1 h2 h3
    rw [h2] at h1
    simp only [validateParameters, validateParamsLoop, h2, h1]
    simp only [Bool.false_eq_true, if_false, ne_eq, not_true_eq_false, if_neg,
      List.contains_nil]
    cases hd : p.default with
    | none => simp
    | some d =>
      have := h3 d hd
      simp [this, validateParamsLoop]
  · intro schema provided p d cs hp hmiss hd hcs hviolate
    rcases except_ok_or_error (resolveParameters schema provided) with ⟨out, hok⟩ | he
    · rcases resolveParameters_ok_inv hok with ⟨hs, _, _⟩ | ⟨_, hnodup, _, hfill⟩
      · subst hs; simp at hp
      · rcases fillDefaults_ok_all hnodup hfill p hp with hsome | ⟨d2, hd2, hc2⟩
        · rw [hmiss] at hsome; cases hsome
        · rw [hd] at hd2
          cases hd2
          unfold ensureChoice at hc2
          rw [hcs] at hc2
          simp [hviolate] at hc2
    · exact he

/-- Witness for the amended C7 at the concrete schema of the
counterexample input shape: validation accepts the schema and resolution
rejects it. -/
theorem c7_default_choices_validation_witness :
    validateParameters (some [paramDefaultOutsideChoices]) =
      .ok (some [paramDefaultOutsideChoices]) ∧
    ∃ e, resolveParameters [paramDefaultOutsideChoices] [] = .error e := by
  constructor
  · exact c7_default_choices_validation.1 paramDefaultOutsideChoices
      (by decide) (by decide) (by intro d hd; cases hd; rfl)
  · exact c7_default_choices_validation.2 [paramDefaultOutsideChoices] []
      paramDefaultOutsideChoices (Json.str "x") [Json.str "a"]
      (by simp) (by rfl) (by rfl) (by rfl) (by decide)

example : parseSemVer "1.2.3" = some ⟨1, 2, 3, [], []⟩ := by decide

example : parseSemVer "1.2.3-alpha.1+build.7" = some ⟨1, 2, 3, ["alpha", "1"], ["build", "7"]⟩ := by decide

example : parseSemVer "" = none := by decide

example : parseSemVer "1.2" = none := by decide

example : parseSemVer "01.2.3" = none := by decide

example : parseSemVer "1.2.3-" = none := by decide

example : cmpSemVer ⟨1, 2, 0, [], []⟩ ⟨1, 2, 1, [], []⟩ = .lt := by decide

example : cmpSemVer ⟨1, 2, 0, ["alpha"], []⟩ ⟨1, 2, 0, [], []⟩ = .lt := by decide

example : cmpSemVer ⟨1, 2, 0, ["2"], []⟩ ⟨1, 2, 0, ["alpha"], []⟩ = .lt := by decide

example : parseSemVer "1.0.0-x-y" = some ⟨1, 0, 0, ["x-y"], []⟩ := by decide

/-- The apply precondition block succeeds exactly on an unexpired
`PreviewReady` prepare row with the matching token. -/
theorem applyCheck_ok_iff {e : Execution} {tok : String} {now : Int} :
    applyCheck e tok now = .ok () ↔
    (e.phase = .prepare ∧ e.status = .previewReady ∧
      e.confirm_token = some tok ∧
      ∀ exp, e.expires_at = some exp → now ≤ exp) := by
  constructor
  · intro h
    unfold applyCheck at h
    split at h
    · exact absurd h (by simp)
    · rename_i h1
      split at h
      · exact absurd h (by simp)
      · rename_i h2
        split at h
        · exact absurd h (by simp)
        · rename_i h3
          refine ⟨not_not.mp h1, not_not.mp h2, not_not.mp h3, ?_⟩
          intro exp hexp
          rw [hexp] at h
          have h5 : (if now > exp then
              Except.error (AppError.execution "Preview has expired, please run prepare again")
            else Except.ok ()) = (.ok () : Except AppError Unit) := h
          split at h5
          · exact absurd h5 (by simp)
          · rename_i h6
            omega
  · rintro ⟨h1, h2, h3, h4⟩
    unfold applyCheck
    rw [if_neg (by simp [h1]), if_neg (by simp [h2]), if_neg (by simp [h3])]
    cases hexp : e.expires_at with
    | none => rfl
    | some exp =>
      have hle := h4 exp hexp
      show (if now > exp then
          Except.error (AppError.execution "Preview has expired, please run prepare again")
        else Except.ok ()) = Except.ok ()
      rw [if_neg (by omega)]

/-- C2. `apply_execution` on an execution that is not a `PreviewReady`
prepare row, or with a wrong confirm token, or past `expires_at`, returns
an error and leaves the row exactly as it was. -/
theorem c2_apply_gate :
    ∀ (e : Execution) (tok : String) (provided : List (String × Json)) (env : ApplyEnv),
      (¬(e.phase = .prepare ∧ e.status = .previewReady) ∨
        e.confirm_token ≠ some tok ∨
        ∃ exp, e.expires_at = some exp ∧ env.now > exp) →
      ∃ err, applyExecution e tok provided env = (.error err, e) := by
  intro e tok provided env h
  have hck : applyCheck e tok env.now ≠ .ok () := by
    intro hok
    obtain ⟨h1, h2, h3, h4⟩ := applyCheck_ok_iff.mp hok
    rcases h with h | h | ⟨exp, hexp, hlt⟩
    · exact h ⟨h1, h2⟩
    · exact h h3
    · have := h4 exp hexp
      omega
  rcases except_ok_or_error (applyCheck e tok env.now) with ⟨a, ha⟩ | ⟨err, herr⟩
  · cases a
    exact absurd ha hck
  · refine ⟨err, ?_⟩
    unfold applyExecution
    rw [herr]

/-- Witness for C2: applying the witness row one millisecond after its
expiry fails and leaves the row unchanged. -/
theorem c2_apply_gate_witness :
    ∃ err, applyExecution samplePreviewExecution "tok" [] sampleApplyEnv =
      (.error err, samplePreviewExecution) := by
  exact c2_apply_gate samplePreviewExecution "tok" [] sampleApplyEnv
    (Or.inr (Or.inr ⟨1000, rfl, by decide⟩))

/-- C10. `begin_apply` moves the row to phase `Apply`, status `Pending`,
and clears the confirm token; no service transition ever moves a row back
out of phase `Apply`; and the apply precondition fails on every
apply-phase row — so an accepted apply can never be accepted again. -/
theorem c10_apply_at_most_once :
    (∀ (e : Execution) (now : Int),
      (beginApply e now).phase = .apply ∧
      (beginApply e now).status = .pending ∧
      (beginApply e now).confirm_token = none) ∧
    (∀ s s', Step s s' → s.exec.phase = .apply → s'.exec.phase = .apply) ∧
    (∀ (e : Execution) (tok : String) (now : Int), e.phase = .apply →
      applyCheck e tok now =
        .error (.execution "Only preview executions can be applied")) := by
  refine ⟨fun e now => ⟨rfl, rfl, rfl⟩, ?_, ?_⟩
  · intro s s' hstep hphase
    cases hstep with
    | updatePidStep e sup pid => exact hphase
    | supervisorExit e ctx exit_code stdout stderr tok texit tstore =>
      unfold supervise
      split
      · exact hphase
      · exact hphase
    | supervisorWaitErr e ctx msg tstore => exact hphase
    | stopStep e sup => exact hphase
    | applyStep e sup tok now beginNow hcheck => rfl
  · intro e tok now hphase
    unfold applyCheck
    rw [if_pos (by simp [hphase])]

/-- Witness for C10: phase monotonicity applied to a concrete stop
transition on an apply-phase row, and the apply gate failing on it. -/
theorem c10_apply_at_most_once_witness :
    (updateStatus (beginApply samplePreviewExecution 5) .stopped).phase = .apply ∧
    applyCheck (beginApply samplePreviewExecution 5) "tok" 6 =
      .error (.execution "Only preview executions can be applied") := by
  constructor
  · exact c10_apply_at_most_once.2.1
      ⟨beginApply samplePreviewExecution 5, none⟩
      ⟨updateStatus (beginApply samplePreviewExecution 5) .stopped, none⟩
      (Step.stopStep (beginApply samplePreviewExecution 5) none)
      (c10_apply_at_most_once.1 samplePreviewExecution 5).1
  · exact c10_apply_at_most_once.2.2 (beginApply samplePreviewExecution 5) "tok" 6
      (c10_apply_at_most_once.1 samplePreviewExecution 5).1

/-- Every reachable execution state satisfies the preview invariant. -/
theorem reachable_previewInv : ∀ s, Reachable s → PreviewInv s := by
  intro s hr
  induction hr with
  | init s hi =>
    cases hi with
    | prepareSpawned id plugin_id now =>
      constructor
      · intro h
        exact ExecutionStatus.noConfusion h
      · intro ctx hctx hsucc
        rfl
    | executeSpawned id plugin_id now =>
      constructor
      · intro h
        exact ExecutionStatus.noConfusion h
      · intro ctx hctx hsucc
        cases hctx
        exact ExecutionStatus.noConfusion hsucc
    | prepareSpawnFailed id plugin_id now =>
      constructor
      · intro h
        exact ExecutionStatus.noConfusion h
      · intro ctx hctx hsucc
        exact Option.noConfusion hctx
    | executeSpawnFailed id plugin_id now =>
      constructor
      · intro h
        exact ExecutionStatus.noConfusion h
      · intro ctx hctx hsucc
        exact Option.noConfusion hctx
  | step s s' hr hstep ih =>
    cases hstep with
    | updatePidStep e sup pid =>
      constructor
      · intro h
        exact ExecutionStatus.noConfusion h
      · intro ctx hctx hsucc
        exact ih.2 ctx hctx hsucc
    | supervisorExit e ctx exit_code stdout stderr tok texit tstore =>
      by_cases hc : exit_code = some 0 ∧ ctx.success_status = .previewReady
      · have hexec : (supervise e ctx exit_code stdout stderr tok texit tstore).exec =
            markPreviewReady e stdout stderr exit_code tok (texit + PREVIEW_TTL_MS) tstore := by
          unfold supervise
          rw [if_pos hc]
        constructor
        · intro _
          refine ⟨?_, ?_, ?_, ⟨texit, ?_⟩⟩ <;> simp only [hexec]
          · exact ih.2 ctx rfl hc.2
          · rfl
          · rfl
          · rfl
        · intro ctx2 hctx2 hsucc
          exact Option.noConfusion hctx2
      · have hexec : (supervise e ctx exit_code stdout stderr tok texit tstore).exec =
            updateResult e stdout stderr exit_code
              (if exit_code = some 0 then ctx.success_status else .failed) tstore := by
          unfold supervise
          rw [if_neg hc]
        constructor
        · intro hstat
          exfalso
          simp only [hexec] at hstat
          have hstat2 : (if exit_code = some 0 then ctx.success_status else ExecutionStatus.failed) =
              .previewReady := hstat
          split at hstat2
          · rename_i hz
            exact hc ⟨hz, hstat2⟩
          · exact ExecutionStatus.noConfusion hstat2
        · intro ctx2 hctx2 hsucc
          exact Option.noConfusion hctx2
    | supervisorWaitErr e ctx msg tstore =>
      constructor
      · intro h
        exact ExecutionStatus.noConfusion h
      · intro ctx2 hctx2 hsucc
        exact Option.noConfusion hctx2
    | stopStep e sup =>
      constructor
      · intro h
        exact ExecutionStatus.noConfusion h
      · intro ctx hctx hsucc
        exact ih.2 ctx hctx hsucc
    | applyStep e sup tok now beginNow hcheck =>
      constructor
      · intro h
        exact ExecutionStatus.noConfusion h
      · intro ctx hctx hsucc
        cases hctx
        exact ExecutionStatus.noConfusion hsucc

/-- C4. Every reachable execution whose status is `PreviewReady` is a
prepare-phase row with a generated confirm token, its preview payload equal
to its captured stdout, and an expiry equal to some clock reading plus the
TTL; and the transition that produces `PreviewReady` (supervisor exit with
code 0 towards `PreviewReady`) stamps the expiry at exactly the exit-time
clock reading plus 600000 ms and stores the captured stdout as both
`stdout` and `preview_payload` together with the fresh token. -/
theorem c4_preview_ready_shape :
    (∀ s, Reachable s → s.exec.status = .previewReady →
      s.exec.phase = .prepare ∧ s.exec.confirm_token.isSome = true ∧
      s.exec.preview_payload = s.exec.stdout ∧
      ∃ t, s.exec.expires_at = some (t + PREVIEW_TTL_MS)) ∧
    (∀ (e : Execution) (ctx : SupCtx) (stdout stderr : Option String)
        (tok : String) (texit tstore : Int),
      ctx.success_status = .previewReady →
      (supervise e ctx (some 0) stdout stderr tok texit tstore).exec.status =
          .previewReady ∧
      (supervise e ctx (some 0) stdout stderr tok texit tstore).exec.expires_at =
          some (texit + 600000) ∧
      (supervise e ctx (some 0) stdout stderr tok texit tstore).exec.stdout = stdout ∧
      (supervise e ctx (some 0) stdout stderr tok texit tstore).exec.preview_payload =
          stdout ∧
      (supervise e ctx (some 0) stdout stderr tok texit tstore).exec.confirm_token =
          some tok ∧
      (supervise e ctx (some 0) stdout stderr tok texit tstore).exec.finished_at =
          some tstore) := by
  constructor
  · intro s hr hstat
    exact (reachable_previewInv s hr).1 hstat
  · intro e ctx stdout stderr tok texit tstore hsucc
    have hexec : (supervise e ctx (some 0) stdout stderr tok texit tstore).exec =
        markPreviewReady e stdout stderr (some 0) tok (texit + PREVIEW_TTL_MS) tstore := by
      unfold supervise
      rw [if_pos ⟨rfl, hsucc⟩]
    refine ⟨?_, ?_, ?_, ?_, ?_, ?_⟩ <;> simp only [hexec] <;> rfl

/-- Witness for C4 at a concrete reachable `PreviewReady` state. -/
theorem c4_preview_ready_shape_witness :
    (sampleFinishedPreview.exec.phase = .prepare ∧
      sampleFinishedPreview.exec.confirm_token.isSome = true ∧
      sampleFinishedPreview.exec.preview_payload = sampleFinishedPreview.exec.stdout ∧
      ∃ t, sampleFinishedPreview.exec.expires_at = some (t + PREVIEW_TTL_MS)) ∧
    sampleFinishedPreview.exec.expires_at = some (5 + 600000) := by
  constructor
  · refine c4_preview_ready_shape.1 sampleFinishedPreview ?_ (by decide)
    exact Reachable.step _ _
      (Reachable.init _ (Init.prepareSpawned "e1" "p1" 0))
      (Step.supervisorExit (createWithPhase "e1" "p1" .prepare 0)
        ⟨.previewReady, false⟩ (some 0) (some "PLAN") none "tok" 5 6)
  · exact (c4_preview_ready_shape.2 (createWithPhase "e1" "p1" .prepare 0)
      ⟨.previewReady, false⟩ (some "PLAN") none "tok" 5 6 rfl).2.1

/-- C9 counterexample: a prepare supervisor (`success = PreviewReady`,
`cleanup_on_success = false`) that exits with code 0 does not remove the
work directory — `keep_on_success` retains it. -/
theorem c9_counterexample :
    (supervise (createWithPhase "e1" "p1" .prepare 0) ⟨.previewReady, false⟩
      (some 0) (some "PLAN") none "tok" 5 6).workDirRemoved = false := by
  decide

/-- C9 amended: on a successful prepare the supervisor retains the
per-execution work directory (`keep_on_success`), while the preview plan is
still stored in the database row (`preview_payload`); the work directory is
removed on any non-zero exit, and on a clean exit when the supervisor was
spawned with `cleanup_on_success` (the apply and execute paths). -/
theorem c9_work_dir_retention :
    (∀ (e : Execution) (stdout stderr : Option String) (tok : String)
        (texit tstore : Int),
      (supervise e ⟨.previewReady, false⟩ (some 0) stdout stderr tok
          texit tstore).workDirRemoved = false ∧
      (supervise e ⟨.previewReady, false⟩ (some 0) stdout stderr tok
          texit tstore).exec.preview_payload = stdout) ∧
    (∀ (e : Execution) (ctx : SupCtx) (exit_code : Option Int)
        (stdout stderr : Option String) (tok : String) (texit tstore : Int),
      exit_code ≠ some 0 →
      (supervise e ctx exit_code stdout stderr tok texit tstore).workDirRemoved =
        true) ∧
    (∀ (e : Execution) (stdout stderr : Option String) (tok : String)
        (texit tstore : Int),
      (supervise e ⟨.completed, true⟩ (some 0) stdout stderr tok
          texit tstore).workDirRemoved = true) := by
  refine ⟨?_, ?_, ?_⟩
  · intro e stdout stderr tok texit tstore
    constructor
    · unfold supervise
      rw [if_pos ⟨rfl, rfl⟩]
      rfl
    · unfold supervise
      rw [if_pos ⟨rfl, rfl⟩]
      rfl
  · intro e ctx exit_code stdout stderr tok texit tstore hne
    unfold supervise
    rw [if_neg (fun hcon => hne hcon.1)]
    simp only [SupervisorOutcome.mk.injEq]
    rw [beq_eq_false_iff_ne.mpr hne]
    rfl
  · intro e stdout stderr tok texit tstore
    unfold supervise
    rw [if_neg (fun hcon => ExecutionStatus.noConfusion hcon.2)]
    rfl

/-- Witness for the amended C9: the failure branch removes the work
directory at a concrete non-zero exit. -/
theorem c9_work_dir_retention_witness :
    (supervise (createWithPhase "e2" "p1" .prepare 0) ⟨.previewReady, false⟩
      (some 1) none (some "boom") "tok" 5 6).workDirRemoved = true := by
  exact c9_work_dir_retention.2.1 (createWithPhase "e2" "p1" .prepare 0)
    ⟨.previewReady, false⟩ (some 1) none (some "boom") "tok" 5 6 (by decide)

/-- An empty string never parses as a version. -/
theorem parseSemVer_of_empty (s : String) (h : strIsEmpty s = true) :
    parseSemVer s = none := by
  cases s with
  | mk data =>
    have hnil : data = [] := by
      simpa [strIsEmpty] using h
    subst hnil
    decide

/-- C5. The version gate: `ensure_newer_version` succeeds exactly when both
trimmed versions parse and the candidate is strictly greater under the
semver ordering; and `update_plugin` never reaches the uninstall of the
existing plugin when that gate fails — a candidate that is not strictly
newer makes the update fail with the existing install intact. -/
theorem c5_update_version_gate :
    (∀ candidate current,
      ensureNewerVersion candidate current = .ok () ↔
      ∃ vc vcur, parseSemVer (strTrim candidate) = some vc ∧
        parseSemVer (strTrim current) = some vcur ∧ cmpSemVer vc vcur = .gt) ∧
    (∀ (id : String) (env : UpdateEnv) (existing : Plugin)
        (spec : PackageMetadata) (metadata_dir : Option String),
      env.existing = some existing →
      env.metadataResult = .ok (spec, metadata_dir) →
      ensureNewerVersion spec.version existing.version ≠ .ok () →
      (updatePlugin id env).uninstallCalled = false ∧
      ∃ e, (updatePlugin id env).result = .error e) := by
  constructor
  · intro candidate current
    constructor
    · intro h
      unfold ensureNewerVersion at h
      split at h
      · exact absurd h (by simp)
      · cases hc : parseSemVer (strTrim candidate) with
        | none =>
          rw [hc] at h
          exact absurd h (by simp)
        | some vc =>
          rw [hc] at h
          cases hcur : parseSemVer (strTrim current) with
          | none =>
            rw [hcur] at h
            exact absurd h (by simp)
          | some vcur =>
            rw [hcur] at h
            have h2 : (if cmpSemVer vc vcur ≠ .gt then
                Except.error (AppError.execution
                  "Plugin version is not newer than installed version")
              else Except.ok ()) = (.ok () : Except AppError Unit) := h
            split at h2
            · exact absurd h2 (by simp)
            · rename_i hgt
              exact ⟨vc, vcur, rfl, rfl, not_not.mp hgt⟩
    · rintro ⟨vc, vcur, hc, hcur, hgt⟩
      have hemp : ¬ strIsEmpty (strTrim candidate) = true := by
        intro hx
        rw [parseSemVer_of_empty _ hx] at hc
        cases hc
      unfold ensureNewerVersion
      rw [if_neg hemp, hc, hcur]
      show (if cmpSemVer vc vcur ≠ Ordering.gt then
          Except.error (AppError.execution
            "Plugin version is not newer than installed version")
        else Except.ok ()) = Except.ok ()
      rw [if_neg (by simp [hgt])]
  · intro id env existing spec metadata_dir henv hmd hne
    rcases except_ok_or_error (ensureNewerVersion spec.version existing.version) with
      ⟨u, hu⟩ | ⟨everr, hver⟩
    · cases u
      exact absurd hu hne
    · cases hfetch : env.fetchOk with
      | false => simp [updatePlugin, henv, hfetch]
      | true =>
        cases htemp : env.tempDirOk with
        | false => simp [updatePlugin, henv, hfetch, htemp]
        | true =>
          rcases hext : env.extractResult with e | u2
          · simp [updatePlugin, henv, hfetch, htemp, hext]
          · rcases hnorm : normalizePluginId spec.plugin_id spec.name with e | pid
            · simp [updatePlugin, henv, hfetch, htemp, hext, hmd, hnorm]
            · by_cases hid : pid ≠ id
              · simp [updatePlugin, henv, hfetch, htemp, hext, hmd, hnorm, hid]
              · cases hep : strIsEmpty (strTrim spec.entry_point) with
                | true =>
                  simp [updatePlugin, henv, hfetch, htemp, hext, hmd, hnorm,
                    not_not.mp hid, hep]
                | false =>
                  rcases hpt : parsePluginType spec.plugin_type with e | pt
                  · simp [updatePlugin, henv, hfetch, htemp, hext, hmd, hnorm,
                      not_not.mp hid, hep, hpt]
                  · rcases hvp : validateParameters spec.parameters with e | ps
                    · simp [updatePlugin, henv, hfetch, htemp, hext, hmd, hnorm,
                        not_not.mp hid, hep, hpt, hvp]
                    · rcases hre : resolveEntryPoint spec.entry_point
                          env.entryRootFound metadata_dir env.entryFallbackFound with e | ep
                      · simp [updatePlugin, henv, hfetch, htemp, hext, hmd, hnorm,
                          not_not.mp hid, hep, hpt, hvp, hre]
                      · simp [updatePlugin, henv, hfetch, htemp, hext, hmd, hnorm,
                          not_not.mp hid, hep, hpt, hvp, hre, hver]

example : ensureNewerVersion "1.2.1" "1.2.0" = .ok () := by decide

example : ensureNewerVersion "1.2.0" "1.2.0" ≠ .ok () := by decide

example : ensureNewerVersion "1.1.9" "1.2.0" ≠ .ok () := by decide

/-- Witness for C5: `1.2.1 > 1.2.0` passes the gate, and an update whose
candidate stays at `1.2.0` fails without uninstalling. -/
theorem c5_update_version_gate_witness :
    ensureNewerVersion "1.2.1" "1.2.0" = .ok () ∧
    (updatePlugin "hello" sampleUpdateEnv).uninstallCalled = false ∧
    ∃ e, (updatePlugin "hello" sampleUpdateEnv).result = .error e := by
  refine ⟨?_, ?_⟩
  · exact (c5_update_version_gate.1 "1.2.1" "1.2.0").mpr
      ⟨⟨1, 2, 1, [], []⟩, ⟨1, 2, 0, [], []⟩, by decide, by decide, by decide⟩
  · exact c5_update_version_gate.2 "hello" sampleUpdateEnv sampleInstalledPlugin
      sampleSameVersionMetadata none rfl rfl (by decide)

/-- C3. Install rollback: starting from a fresh state (no plugin directory,
no environment directory, no row), whenever
`install_plugin_from_bytes` returns an error — in particular when
extraction, entry-point resolution, dependency serialisation, environment
provisioning or the row insert fails — the final state has no plugin
directory, no environment directory and no plugin row. -/
theorem c3_install_rollback :
    ∀ (env : InstallEnv) (err : AppError),
      (installPluginFromBytes env ⟨false, false, false⟩).1 = .error err →
      (installPluginFromBytes env ⟨false, false, false⟩).2 = ⟨false, false, false⟩ := by
  intro env err h
  rcases hm : env.metadataResult with e | ⟨spec, md⟩
  · simp [installPluginFromBytes, hm]
  · rcases hn : normalizePluginId spec.plugin_id spec.name with e | pid
    · simp [installPluginFromBytes, hm, hn]
    · cases hrepo : env.repoHasPlugin with
      | true => simp [installPluginFromBytes, hm, hn, hrepo]
      | false =>
        cases hep : strIsEmpty (strTrim spec.entry_point) with
        | true => simp [installPluginFromBytes, hm, hn, hrepo, hep]
        | false =>
          rcases hpt : parsePluginType spec.plugin_type with e | pt
          · simp [installPluginFromBytes, hm, hn, hrepo, hep, hpt]
          · rcases hvp : validateParameters spec.parameters with e | ps
            · simp [installPluginFromBytes, hm, hn, hrepo, hep, hpt, hvp]
            · rcases hext : env.extractResult with e | u
              · simp [installPluginFromBytes, hm, hn, hrepo, hep, hpt, hvp, hext]
              · rcases hre : resolveEntryPoint spec.entry_point env.entryRootFound
                    md env.entryFallbackFound with e | ep
                · simp [installPluginFromBytes, hm, hn, hrepo, hep, hpt, hvp, hext, hre]
                · cases pt with
                  | javascript =>
                    rcases hcr : env.createRowResult with e | u2
                    · simp [installPluginFromBytes, hm, hn, hrepo, hep, hpt, hvp,
                        hext, hre, hcr]
                    · exfalso
                      simp [installPluginFromBytes, hm, hn, hrepo, hep, hpt, hvp,
                        hext, hre, hcr] at h
                  | python =>
                    rcases hdeps : env.resolvedDeps with _ | d
                    · rcases hpe : env.prepareEnvResult with e | u3
                      · simp [installPluginFromBytes, hm, hn, hrepo, hep, hpt, hvp,
                          hext, hre, hdeps, hpe]
                      · rcases hcr : env.createRowResult with e | u4
                        · simp [installPluginFromBytes, hm, hn, hrepo, hep, hpt, hvp,
                            hext, hre, hdeps, hpe, hcr]
                        · exfalso
                          simp [installPluginFromBytes, hm, hn, hrepo, hep, hpt, hvp,
                            hext, hre, hdeps, hpe, hcr] at h
                    · rcases hser : env.serializeDepsResult with e | json
                      · simp [installPluginFromBytes, hm, hn, hrepo, hep, hpt, hvp,
                          hext, hre, hdeps, hser]
                      · rcases hpe : env.prepareEnvResult with e | u3
                        · simp [installPluginFromBytes, hm, hn, hrepo, hep, hpt, hvp,
                            hext, hre, hdeps, hser, hpe]
                        · rcases hcr : env.createRowResult with e | u4
                          · simp [installPluginFromBytes, hm, hn, hrepo, hep, hpt, hvp,
                              hext, hre, hdeps, hser, hpe, hcr]
                          · exfalso
                            simp [installPluginFromBytes, hm, hn, hrepo, hep, hpt, hvp,
                              hext, hre, hdeps, hser, hpe, hcr] at h

/-- Witness for C3: the failing concrete install ends with no plugin
directory, no environment directory and no row. -/
theorem c3_install_rollback_witness :
    (installPluginFromBytes sampleFailingInstallEnv ⟨false, false, false⟩).2 =
      ⟨false, false, false⟩ := by
  exact c3_install_rollback sampleFailingInstallEnv
    (.execution "Invalid zip archive") rfl

example :
    (extractZip [⟨"hello/metadata.json", none, [1]⟩, ⟨"hello/", none, []⟩]
      ["plugins", "hello"]).written =
    [{ path := ["plugins", "hello", "hello", "metadata.json"], contents := [1], exec := false }] := by
  decide

example : enclosedName "/etc/passwd" = none := by decide

example : enclosedName "../x" = none := by decide

example : (extractZip [⟨"../x", none, []⟩] ["t"]).error.isSome = true := by decide

/-- Components passing the depth scan resolve to a path below the join
base: the running depth counts how much of the appended suffix a `..` may
consume, so the base itself is never popped. -/
theorem normJoin_stays_under {comps : List PathComp} :
    ∀ (base extra : List String), enclosedDepthOk comps extra.length = true →
      ∃ rest, normJoin (base ++ extra) comps = base ++ rest := by
  induction comps with
  | nil =>
    intro base extra h
    exact ⟨extra, rfl⟩
  | cons c rest ih =>
    intro base extra h
    cases c with
    | parentDir =>
      cases hx : extra with
      | nil =>
        rw [hx] at h
        simp only [List.length_nil] at h
        exact absurd h (by simp [enclosedDepthOk])
      | cons x xs =>
        subst hx
        have hlen : (x :: xs).length = xs.length + 1 := by simp
        rw [hlen] at h
        have h2 : enclosedDepthOk rest ((x :: xs).dropLast).length = true := by
          have : ((x :: xs).dropLast).length = xs.length := by
            simp [List.length_dropLast]
          rw [this]
          exact h
        have hdrop : (base ++ x :: xs).dropLast = base ++ (x :: xs).dropLast := by
          rw [List.dropLast_append_of_ne_nil]
          simp
        have := ih base ((x :: xs).dropLast) h2
        simpa [normJoin, hdrop] using this
    | curDir =>
      have h2 : enclosedDepthOk rest extra.length = true := h
      have := ih base extra h2
      simpa [normJoin] using this
    | normal s =>
      have h2 : enclosedDepthOk rest (extra ++ [s]).length = true := by
        simpa using h
      have := ih base (extra ++ [s]) h2
      simpa [normJoin, List.append_assoc] using this

/-- Every file the loop appends lies below the target. -/
theorem extractLoop_written_under {target : List String} :
    ∀ (entries : List ZipEntry) (acc : List WrittenFile),
      (∀ g ∈ acc, ∃ rest, g.path = target ++ rest) →
      ∀ f ∈ (extractLoop target entries acc).written,
        ∃ rest, f.path = target ++ rest := by
  intro entries
  induction entries with
  | nil =>
    intro acc hacc f hf
    exact hacc f hf
  | cons entry rest ih =>
    intro acc hacc f hf
    simp only [extractLoop] at hf
    cases henc : enclosedName entry.name with
    | none =>
      simp only [henc] at hf
      exact hacc f hf
    | some comps =>
      simp only [henc] at hf
      by_cases hdir : strEndsWithSlash entry.name = true
      · rw [if_pos hdir] at hf
        exact ih acc hacc f hf
      · rw [if_neg hdir] at hf
        refine ih _ ?_ f hf
        intro g hg
        rcases List.mem_append.mp hg with hg | hg
        · exact hacc g hg
        · simp only [List.mem_singleton] at hg
          subst hg
          have hok : enclosedDepthOk comps 0 = true := by
            unfold enclosedName at henc
            split at henc
            · cases henc
            · split at henc
              · cases henc
              · split at henc
                · rename_i hd
                  cases henc
                  exact hd
                · cases henc
          have := @normJoin_stays_under comps target [] (by simpa using hok)
          simpa using this

/-- A clean run over a prefix continues deterministically: appending a
rejected entry makes the whole run fail with exactly the prefix's files
written. -/
theorem extractLoop_stops_at_bad {target : List String} {entry : ZipEntry}
    (henc : enclosedName entry.name = none) :
    ∀ (pre post : List ZipEntry) (acc : List WrittenFile),
      (extractLoop target pre acc).error = none →
      extractLoop target (pre ++ entry :: post) acc =
        { written := (extractLoop target pre acc).written
          error := some "Invalid file path in archive" } := by
  intro pre
  induction pre with
  | nil =>
    intro post acc hok
    simp [extractLoop, henc]
  | cons e2 rest ih =>
    intro post acc hok
    simp only [extractLoop, List.cons_append] at hok ⊢
    cases henc2 : enclosedName e2.name with
    | none =>
      simp only [henc2] at hok
      exact Option.noConfusion hok
    | some comps =>
      simp only [henc2] at hok ⊢
      by_cases hdir : strEndsWithSlash e2.name = true
      · simp only [if_pos hdir] at hok ⊢
        have := ih post acc hok
        simpa using this
      · simp only [if_neg hdir] at hok ⊢
        have := ih post _ hok
        simpa using this

/-- C1 counterexample: the entry name `a/../b` has an enclosed name (the
zip crate accepts interior `..` that stays inside) containing a parent-dir
component, yet extraction succeeds — and still writes inside the target. -/
theorem c1_counterexample :
    (pathComponents "a/../b").contains PathComp.parentDir = true ∧
    (extractZip [⟨"a/../b", none, [7]⟩] ["plugins", "hello"]).error = none ∧
    (extractZip [⟨"a/../b", none, [7]⟩] ["plugins", "hello"]).written =
      [{ path := ["plugins", "hello", "b"], contents := [7], exec := false }] := by
  refine ⟨by decide, by decide, by decide⟩

/-- C1 amended: every file extraction writes resolves to a path at or below
the target directory; an entry whose enclosed name is absolute (or contains
NUL, or whose parent-dir components would climb above the root) has no
enclosed name, and any such entry aborts the whole extraction with an error
before that entry is written (entries already written stay, for the caller
to roll back). Interior `..` that stays inside the target is accepted. -/
theorem c1_extraction_path_safety :
    (∀ (entries : List ZipEntry) (target : List String),
      ∀ f ∈ (extractZip entries target).written, ∃ rest, f.path = target ++ rest) ∧
    (∀ name : String, isAbsolutePath name = true → enclosedName name = none) ∧
    (∀ name : String, enclosedDepthOk (pathComponents name) 0 = false →
      enclosedName name = none) ∧
    (∀ (target : List String) (pre post : List ZipEntry) (entry : ZipEntry),
      enclosedName entry.name = none →
      (extractZip pre target).error = none →
      (extractZip (pre ++ entry :: post) target).error =
          some "Invalid file path in archive" ∧
      (extractZip (pre ++ entry :: post) target).written =
          (extractZip pre target).written) := by
  refine ⟨?_, ?_, ?_, ?_⟩
  · intro entries target f hf
    exact extractLoop_written_under entries [] (by simp) f hf
  · intro name habs
    simp [enclosedName, habs]
  · intro name hdepth
    simp [enclosedName, hdepth]
  · intro target pre post entry henc hok
    have := extractLoop_stops_at_bad henc pre post [] hok
    unfold extractZip
    rw [this]
    exact ⟨rfl, rfl⟩

/-- Witness for the amended C1: the safety conjunct at a concrete archive,
and the abort conjunct at a concrete traversal entry after one good
entry. -/
theorem c1_extraction_path_safety_witness :
    (∃ rest, (["plugins", "hello", "b"] : List String) = ["plugins", "hello"] ++ rest) ∧
    (extractZip [⟨"ok.txt", none, [1]⟩, ⟨"../evil", none, [2]⟩] ["t"]).error =
        some "Invalid file path in archive" ∧
    (extractZip [⟨"ok.txt", none, [1]⟩, ⟨"../evil", none, [2]⟩] ["t"]).written =
        (extractZip [⟨"ok.txt", none, [1]⟩] ["t"]).written := by
  refine ⟨?_, ?_⟩
  · exact c1_extraction_path_safety.1 [⟨"a/../b", none, [7]⟩] ["plugins", "hello"]
      { path := ["plugins", "hello", "b"], contents := [7], exec := false } (by decide)
  · exact c1_extraction_path_safety.2.2.2 ["t"] [⟨"ok.txt", none, [1]⟩]
      [] ⟨"../evil", none, [2]⟩ (by decide) (by decide)

/-- C8 counterexample: an entry whose archive metadata carries mode `0o755`
(executable bits set) is materialised without the executable bit —
`extract_zip` never transfers permissions. -/
theorem c8_counterexample :
    (extractZip [⟨"tool", some 0o755, [9]⟩] ["plugins", "hello"]).written =
      [{ path := ["plugins", "hello", "tool"], contents := [9], exec := false }] := by
  decide

/-- C8 amended: every file written by the plugin archive extractor has
default, non-executable permissions regardless of the mode stored in the
archive — the extractor ignores `unix_mode()` entirely (only the
out-of-scope self-update extractor preserves it). -/
theorem c8_no_exec_bit_preserved :
    ∀ (entries : List ZipEntry) (target : List String),
      ∀ f ∈ (extractZip entries target).written, f.exec = false := by
  have hloop : ∀ (target : List String) (entries : List ZipEntry)
      (acc : List WrittenFile), (∀ g ∈ acc, g.exec = false) →
      ∀ f ∈ (extractLoop target entries acc).written, f.exec = false := by
    intro target entries
    induction entries with
    | nil =>
      intro acc hacc f hf
      exact hacc f hf
    | cons entry rest ih =>
      intro acc hacc f hf
      simp only [extractLoop] at hf
      cases henc : enclosedName entry.name with
      | none =>
        simp only [henc] at hf
        exact hacc f hf
      | some comps =>
        simp only [henc] at hf
        by_cases hdir : strEndsWithSlash entry.name = true
        · rw [if_pos hdir] at hf
          exact ih acc hacc f hf
        · rw [if_neg hdir] at hf
          refine ih _ ?_ f hf
          intro g hg
          rcases List.mem_append.mp hg with hg | hg
          · exact hacc g hg
          · simp only [List.mem_singleton] at hg
            subst hg
            rfl
  intro entries target f hf
  exact hloop target entries [] (by simp) f hf

/-- Witness for the amended C8 at the counterexample archive. -/
theorem c8_no_exec_bit_preserved_witness :
    ({ path := ["plugins", "hello", "tool"], contents := [9],
        exec := false } : WrittenFile).exec = false := by
  exact c8_no_exec_bit_preserved [⟨"tool", some 0o755, [9]⟩] ["plugins", "hello"]
    { path := ["plugins", "hello", "tool"], contents := [9], exec := false } (by decide)
